import Mathlib

/-!
Verification development for libldm (`src/ldm.c`): a shallow embedding of the
LDM metadata decoder, the topology resolver, the disk-ingestion logic of the
`LDM` registry, and the device-mapper table generator, together with theorems
settling the specification claims.

Modelling conventions:
* on-disk bytes are `List Nat` (each entry one byte), multi-byte fields are
  big-endian as in the C source (`be16toh`/`be32toh`/`be64toh`);
* C pointers between domain objects (partition → disk, component → partitions,
  volume → components) are indices into the owning disk group's lists, which
  reproduces the aliasing of the reference-counted C object graph;
* `uint64_t` arithmetic that can overflow is performed with an explicit
  `% 2^64` (`u64add`);
* the unguarded `g_array_index` reads of the C source are modelled by a
  distinguished error value `LdmError.oob`, so that an out-of-bounds access is
  an observable outcome of the total Lean functions.
-/

namespace Libldm

/-- Addition of two `uint64_t` values, with the C wrap-around made explicit. -/
def u64add (a b : Nat) : Nat := (a + b) % 18446744073709551616

/-- Apply `f` to the element at position `i`, leaving the list unchanged when
`i` is out of range.  Used to model in-place mutation of one array element. -/
def modifyIdx (f : α → α) : List α → Nat → List α
  | [], _ => []
  | a :: as, 0 => f a :: as
  | a :: as, n + 1 => a :: modifyIdx f as n

/-- Index of the first element satisfying `p` (the C pattern
`for (i = 0; ...) if (pred) break;`). -/
def firstIdx? (p : α → Bool) : List α → Option Nat
  | [] => none
  | a :: as => if p a then some 0 else (firstIdx? p as).map (· + 1)

/-- Index of the last element satisfying `p`: models the group-lookup loop of
`ldm_add_fd`, which keeps overwriting `dg` without breaking. -/
def lastMatchIdx? (p : α → Bool) : List α → Option Nat
  | [] => none
  | a :: as =>
    match lastMatchIdx? p as with
    | some i => some (i + 1)
    | none => if p a then some 0 else none

/-- Insert `x` into `l`, assumed sorted by `key`, keeping it sorted. -/
def insertByKey (key : α → Nat) (x : α) : List α → List α
  | [] => [x]
  | y :: ys => if key x ≤ key y then x :: y :: ys else y :: insertByKey key x ys

/-- Sort by `key` ascending: models `g_array_sort(..., _cmp_component_parts)`,
whose comparator orders partitions by their `index` field. -/
def sortByKey (key : α → Nat) : List α → List α
  | [] => []
  | x :: xs => insertByKey key x (sortByKey key xs)

/-- `true` iff consecutive keys never decrease. -/
def nondecreasingBy (key : α → Nat) : List α → Bool
  | [] => true
  | [_] => true
  | a :: b :: rest => decide (key a ≤ key b) && nondecreasingBy key (b :: rest)

/-- `true` iff consecutive keys strictly increase. -/
def strictAscendingBy (key : α → Nat) : List α → Bool
  | [] => true
  | [_] => true
  | a :: b :: rest => decide (key a < key b) && strictAscendingBy key (b :: rest)

/-! ### Big-endian readers and the VMDB header layout

These follow `struct _vmdb` (packed) and the `be32toh` reads performed by
`_parse_vblks`.  A missing byte reads as 0; the claims about the layout only
concern which offsets feed which field. -/

/-- Big-endian 16-bit read at byte offset `off`. -/
def readBE16 (b : List Nat) (off : Nat) : Nat :=
  b.getD off 0 * 256 + b.getD (off + 1) 0

/-- Big-endian 32-bit read at byte offset `off`. -/
def readBE32 (b : List Nat) (off : Nat) : Nat :=
  ((b.getD off 0 * 256 + b.getD (off + 1) 0) * 256 + b.getD (off + 2) 0) * 256 +
    b.getD (off + 3) 0

/-- Big-endian 64-bit read at byte offset `off`. -/
def readBE64 (b : List Nat) (off : Nat) : Nat :=
  readBE32 b off * 4294967296 + readBE32 b (off + 4)

/-! Byte offsets of the fields of `struct _vmdb`, accumulated from the packed
field sizes in declaration order. -/

def vmdbOffMagic : Nat := 0
def vmdbOffVblkLast : Nat := vmdbOffMagic + 4
def vmdbOffVblkSize : Nat := vmdbOffVblkLast + 4
def vmdbOffVblkFirstOffset : Nat := vmdbOffVblkSize + 4
def vmdbOffUpdateStatus : Nat := vmdbOffVblkFirstOffset + 4
def vmdbOffVersionMajor : Nat := vmdbOffUpdateStatus + 2
def vmdbOffVersionMinor : Nat := vmdbOffVersionMajor + 2
def vmdbOffDiskGroupName : Nat := vmdbOffVersionMinor + 2
def vmdbOffDiskGroupGuid : Nat := vmdbOffDiskGroupName + 31
def vmdbOffCommittedSeq : Nat := vmdbOffDiskGroupGuid + 64
def vmdbOffPendingSeq : Nat := vmdbOffCommittedSeq + 8
def vmdbOffNCommittedVblksVol : Nat := vmdbOffPendingSeq + 8
def vmdbOffNCommittedVblksComp : Nat := vmdbOffNCommittedVblksVol + 4
def vmdbOffNCommittedVblksPart : Nat := vmdbOffNCommittedVblksComp + 4
def vmdbOffNCommittedVblksDisk : Nat := vmdbOffNCommittedVblksPart + 4

/-- The four expected-record counts a disk group takes from the VMDB header,
exactly as `_parse_vblks` reads them (`dg->n_disks = be32toh
(vmdb->n_committed_vblks_disk)` and so on). -/
structure VmdbCounts where
  n_disks : Nat
  n_comps : Nat
  n_parts : Nat
  n_vols : Nat
deriving DecidableEq, Repr

/-- Counts as actually read by the code, through the `struct _vmdb` layout. -/
def vmdbCounts (b : List Nat) : VmdbCounts :=
  { n_disks := readBE32 b vmdbOffNCommittedVblksDisk
    n_comps := readBE32 b vmdbOffNCommittedVblksComp
    n_parts := readBE32 b vmdbOffNCommittedVblksPart
    n_vols := readBE32 b vmdbOffNCommittedVblksVol }

/-- Counts as the specification claims they are laid out (claim C8): the disk
count from the first u32 after `pending_seq`, then components, partitions,
volumes.  Kept separate from `vmdbCounts` so the two can be compared. -/
def vmdbCountsClaim (b : List Nat) : VmdbCounts :=
  { n_disks := readBE32 b (vmdbOffPendingSeq + 8)
    n_comps := readBE32 b (vmdbOffPendingSeq + 12)
    n_parts := readBE32 b (vmdbOffPendingSeq + 16)
    n_vols := readBE32 b (vmdbOffPendingSeq + 20) }

/-- Committed sequence number, `be64toh(vmdb->committed_seq)`. -/
def vmdbCommittedSeq (b : List Nat) : Nat := readBE64 b vmdbOffCommittedSeq

/-! ### VBLK spanned-record reassembly

Models the `spanned` table of `_parse_vblks` (`struct _spanned_rec` plus the
lookup/copy loop).  An `Entry` is one VBLK entry that is part of a
multi-entry record: the fields of `struct _vblk_head` that the reassembly
code consults, the entry's payload (the `vblk_data_size` bytes after the
header) and the entry's config offset (used only for diagnostics). -/

structure Entry where
  record_id : Nat
  entry : Nat
  entries_total : Nat
  payload : List Nat
  offset : Nat
deriving DecidableEq, Repr

/-- One in-progress reassembly, mirroring `struct _spanned_rec`.  `data` is
the record buffer cut into per-entry slots of `sz` bytes; `g_malloc0`
zero-initialises it. -/
structure SpannedRec where
  record_id : Nat
  entries_total : Nat
  entries_found : Nat
  offset : Nat
  data : List (List Nat)
deriving DecidableEq, Repr

/-- Process one spanned VBLK entry, as the body of the `_parse_vblks` loop
does: find an existing reassembly with the same `record_id` and copy the
payload into slot `entry`, or create a fresh one. -/
def addSpanned (sz : Nat) (spanned : List SpannedRec) (e : Entry) : List SpannedRec :=
  match firstIdx? (fun r => r.record_id == e.record_id) spanned with
  | some i =>
    modifyIdx
      (fun r =>
        { r with
          entries_found := r.entries_found + 1
          data := r.data.set e.entry e.payload })
      spanned i
  | none =>
    spanned ++
      [{ record_id := e.record_id
         entries_total := e.entries_total
         entries_found := 1
         offset := e.offset
         data := (List.replicate e.entries_total (List.replicate sz 0)).set e.entry e.payload }]

/-- Reassembly table after delivering the stream of spanned entries in order. -/
def reassemble (sz : Nat) (l : List Entry) : List SpannedRec :=
  l.foldl (addSpanned sz) []

/-- Lookup of the reassembly for `rid` (first match, as the C loop). -/
def lookupRec (rid : Nat) (s : List SpannedRec) : Option SpannedRec :=
  s.find? (fun r => r.record_id == rid)

/-- The observable reassembly result for a record: its buffer, how many of its
entries were found and how many were expected.  The `offset` field (first
arriving entry's position, used only in error messages) is not part of the
reassembled record buffer. -/
def recBuf (sz : Nat) (l : List Entry) (rid : Nat) : Option (List (List Nat) × Nat × Nat) :=
  (lookupRec rid (reassemble sz l)).map fun r => (r.data, r.entries_found, r.entries_total)

/-! ### Domain model

`LDMDisk`, `LDMPartition`, `LDMComponent`, `LDMVolume`, `LDMDiskGroup` private
structs, with pointers replaced by indices into the group's lists. -/

inductive CompType where
  | striped
  | spanned
  | raid
deriving DecidableEq, Repr

inductive VolType where
  | gen
  | raid5
deriving DecidableEq, Repr

inductive LdmError where
  | internal
  | io
  | notLdm
  | invalid
  | inconsistent
  | notSupported
  | missingDisk
  | oob
deriving DecidableEq, Repr

structure DiskR where
  id : Nat
  name : String
  dgname : String
  data_start : Nat
  data_size : Nat
  metadata_start : Nat
  metadata_size : Nat
  guid : String
  device : Option String
deriving DecidableEq, Repr

structure PartR where
  id : Nat
  parent_id : Nat
  name : String
  start : Nat
  vol_offset : Nat
  size : Nat
  index : Nat
  disk_id : Nat
  disk : Option Nat
deriving DecidableEq, Repr

structure CompR where
  id : Nat
  parent_id : Nat
  name : String
  type : CompType
  n_parts : Nat
  parts : List Nat
  stripe_size : Nat
  n_columns : Nat
deriving DecidableEq, Repr

structure VolR where
  id : Nat
  name : String
  dgname : String
  type : VolType
  size : Nat
  part_type : Nat
  volume_type : Nat
  flags : Nat
  n_comps : Nat
  comps : List Nat
  id1 : Option String
  id2 : Option String
  size2 : Nat
  hint : Option String
deriving DecidableEq, Repr

structure DiskGroup where
  guid : String
  id : Nat
  name : String
  sequence : Nat
  n_disks : Nat
  n_comps : Nat
  n_parts : Nat
  n_vols : Nat
  disks : List DiskR
  comps : List CompR
  parts : List PartR
  vols : List VolR
deriving DecidableEq, Repr

/-- Key function for the component-partition sort: the `index` field of the
partition a child slot refers to (`_cmp_component_parts`). -/
def partIndexKey (parts : List PartR) (i : Nat) : Nat :=
  ((parts.get? i).map (fun p => p.index)).getD 0

/-! ### Topology resolver

The tail of `_parse_vblks` (after all VBLK records have been decoded into the
draft group's four lists): count checks, partition → disk and
partition → component linking, per-component sorting and count check,
component → volume linking and count check, and the `dgname` copies. -/

/-- Partition-linking loop: for each partition locate its disk (first disk
with matching `id`, else `Invalid`) and its parent component (first component
with matching `id`, else `Invalid`), appending the partition's position to the
component's child list. -/
def linkPartsAux (disks : List DiskR) :
    List PartR → Nat → List CompR → List PartR →
    Except LdmError (List PartR × List CompR)
  | [], _, comps, acc => .ok (acc.reverse, comps)
  | p :: rest, i, comps, acc =>
    match firstIdx? (fun d => d.id == p.disk_id) disks with
    | none => .error .invalid
    | some j =>
      match firstIdx? (fun c => c.id == p.parent_id) comps with
      | none => .error .invalid
      | some k =>
        linkPartsAux disks rest (i + 1)
          (modifyIdx (fun c => { c with parts := c.parts ++ [i] }) comps k)
          ({ p with disk := some j } :: acc)

/-- Component loop: child-count check, sort children by partition index,
locate the parent volume (else `Invalid`) and append the component's position
to it. -/
def linkCompsAux (parts : List PartR) :
    List CompR → Nat → List VolR → List CompR →
    Except LdmError (List CompR × List VolR)
  | [], _, vols, acc => .ok (acc.reverse, vols)
  | c :: rest, k, vols, acc =>
    if c.parts.length ≠ c.n_parts then .error .invalid
    else
      match firstIdx? (fun v => v.id == c.parent_id) vols with
      | none => .error .invalid
      | some j =>
        linkCompsAux parts rest (k + 1)
          (modifyIdx (fun v => { v with comps := v.comps ++ [k] }) vols j)
          ({ c with parts := sortByKey (partIndexKey parts) c.parts } :: acc)

/-- Volume loop: component-count check and the `dgname` copy. -/
def checkVolsAux (dgn : String) : List VolR → List VolR → Except LdmError (List VolR)
  | [], acc => .ok acc.reverse
  | v :: rest, acc =>
    if v.comps.length ≠ v.n_comps then .error .invalid
    else checkVolsAux dgn rest ({ v with dgname := dgn } :: acc)

/-- The resolver: all structural checks and linking performed by
`_parse_vblks` once the VBLK stream has been decoded. -/
def resolve (dg : DiskGroup) : Except LdmError DiskGroup :=
  if dg.disks.length ≠ dg.n_disks then .error .invalid
  else if dg.comps.length ≠ dg.n_comps then .error .invalid
  else if dg.parts.length ≠ dg.n_parts then .error .invalid
  else if dg.vols.length ≠ dg.n_vols then .error .invalid
  else
    match linkPartsAux dg.disks dg.parts 0 dg.comps [] with
    | .error e => .error e
    | .ok (parts', comps₀) =>
      match linkCompsAux parts' comps₀ 0 dg.vols [] with
      | .error e => .error e
      | .ok (comps', vols₀) =>
        match checkVolsAux dg.name vols₀ [] with
        | .error e => .error e
        | .ok vols' =>
          .ok { dg with
                parts := parts'
                comps := comps'
                vols := vols'
                disks := dg.disks.map fun d => { d with dgname := dg.name } }

/-! ### Disk ingestion (`ldm_add_fd`)

The I/O and byte-level decoding stages are abstracted into a `DiskInput`: the
PRIVHEAD-derived identity and geometry of the disk, the VMDB committed
sequence, and the draft group produced by the VBLK decode loop (record lists,
counts and group name).  From `uuid_parse` onward the control flow follows the
C function. -/

structure DiskInput where
  path : String
  disk_guid : String
  group_guid : String
  data_start : Nat
  data_size : Nat
  metadata_start : Nat
  metadata_size : Nat
  committed_seq : Nat
  draft : DiskGroup
deriving DecidableEq, Repr

/-- The PRIVHEAD information merged into a matching disk record. -/
def privheadUpdate (d : DiskInput) (k : DiskR) : DiskR :=
  { k with
    device := some d.path
    data_start := d.data_start
    data_size := d.data_size
    metadata_start := d.metadata_start
    metadata_size := d.metadata_size }

/-- The device-population loop of `ldm_add_fd`: find the first disk record
whose GUID equals the PRIVHEAD disk GUID and fill in its device information;
no match means no change. -/
def updateDeviceInfo (d : DiskInput) (disks : List DiskR) : List DiskR :=
  match firstIdx? (fun k => k.guid == d.disk_guid) disks with
  | none => disks
  | some j => modifyIdx (privheadUpdate d) disks j

/-- `ldm_add_fd` on a registry (the `LDM` object's list of disk groups).
Returns the registry after the call plus the error raised, if any; an error
leaves the registry exactly as it was, as in the C code. -/
def ldm_add_fd (reg : List DiskGroup) (d : DiskInput) :
    List DiskGroup × Option LdmError :=
  match lastMatchIdx? (fun g => g.guid == d.group_guid) reg with
  | none =>
    match resolve { d.draft with guid := d.group_guid, sequence := d.committed_seq } with
    | .error e => (reg, some e)
    | .ok g => (reg ++ [{ g with disks := updateDeviceInfo d g.disks }], none)
  | some i =>
    match reg.get? i with
    | none => (reg, some .oob)
    | some g =>
      if d.committed_seq ≠ g.sequence then (reg, some .inconsistent)
      else
        (modifyIdx (fun g => { g with disks := updateDeviceInfo d g.disks }) reg i, none)

/-- Adding a list of disks in order to a registry, discarding per-call errors
(the registry component of each call's result is threaded through). -/
def ldmAddAll (reg : List DiskGroup) (l : List DiskInput) : List DiskGroup :=
  l.foldl (fun r d => (ldm_add_fd r d).1) reg

/-! ### Table-name escaping

`g_uri_escape_string(str, G_URI_RESERVED_CHARS_ALLOWED_IN_PATH_ELEMENT,
FALSE)`: every byte that is neither unreserved (`isalnum`, `-`, `.`, `_`,
`~`) nor one of the reserved characters allowed in a path element
(`! $ & ' ( ) * + , ; = : @`) is replaced by `%XX` with uppercase hex. -/

/-- Uppercase hexadecimal digit for `n < 16`. -/
def hexDigit (n : Nat) : Char :=
  if n < 10 then Char.ofNat (48 + n) else Char.ofNat (55 + n)

/-- Reserved characters G_URI_RESERVED_CHARS_ALLOWED_IN_PATH_ELEMENT, by
ASCII code: `! $ & ' ( ) * + , ; = : @`. -/
def reservedAllowedInPathElement : List Nat :=
  [33, 36, 38, 39, 40, 41, 42, 43, 44, 59, 61, 58, 64]

/-- Is `c` emitted verbatim by the escaper? -/
def uriCharOk (c : Char) : Bool :=
  c.isAlpha || c.isDigit || c == '-' || c == '.' || c == '_' || c == '~' ||
    reservedAllowedInPathElement.contains c.toNat

/-- Escape a single character. -/
def escapeChar (c : Char) : List Char :=
  if uriCharOk c then [c]
  else ['%', hexDigit (c.toNat / 16 % 16), hexDigit (c.toNat % 16)]

/-- `g_uri_escape_string` with the path-element allowed set (ASCII names). -/
def g_uri_escape_string (s : String) : String :=
  ⟨(s.data.map escapeChar).flatten⟩

/-! ### Device-mapper table generation

`_generate_dm_table_part`, `_generate_dm_tables_mirrored`,
`_generate_dm_tables_spanned`, `_generate_dm_tables_striped`,
`_generate_dm_tables_raid5` and `ldm_volume_generate_dm_tables`.  A table is
its name plus its content string, exactly as the C builds them with
`g_string_printf`/`g_string_append_printf`. -/

structure DMTable where
  name : String
  table : String
deriving DecidableEq, Repr

/-- Leaf table for one partition.  The C dereferences `part->disk`
unconditionally (dangling is modelled as `.oob`); a missing device is
`MissingDisk`; otherwise the name is built from the escaped disk-group and
partition names and the table is `0 <size> linear <device>
<data_start+start>` with a trailing newline. -/
def generate_dm_table_part (g : DiskGroup) (part : PartR) : Except LdmError DMTable :=
  match part.disk.bind g.disks.get? with
  | none => .error .oob
  | some disk =>
    match disk.device with
    | none => .error .missingDisk
    | some dev =>
      .ok
        { name := "ldm_" ++ g_uri_escape_string disk.dgname ++ "_" ++
            g_uri_escape_string part.name
          table := "0 " ++ toString part.size ++ " linear " ++ dev ++ " " ++
            toString (u64add disk.data_start part.start) ++ "\n" }

/-- Loop body of `_generate_dm_tables_mirrored` over the volume's components:
each leg must be a SPANNED component with exactly one partition; a leg whose
disk is missing contributes the placeholder pair and no leaf table; each
produced leaf table is prepended (`g_array_prepend_val`), so `leafs`
accumulates them in reverse component order. -/
def mirroredLoop (g : DiskGroup) :
    List Nat → List DMTable → String → Nat →
    Except LdmError (List DMTable × String × Nat)
  | [], leafs, tbl, found => .ok (leafs, tbl, found)
  | ci :: rest, leafs, tbl, found =>
    match g.comps.get? ci with
    | none => .error .oob
    | some comp =>
      if comp.type ≠ CompType.spanned ∨ comp.parts.length ≠ 1 then .error .notSupported
      else
        match comp.parts.get? 0 with
        | none => .error .oob
        | some pi =>
          match g.parts.get? pi with
          | none => .error .oob
          | some part =>
            match generate_dm_table_part g part with
            | .error .missingDisk => mirroredLoop g rest leafs (tbl ++ " - -") found
            | .error e => .error e
            | .ok t =>
              mirroredLoop g rest (t :: leafs)
                (tbl ++ " - /dev/mapper/" ++ t.name) (found + 1)

/-- `_generate_dm_tables_mirrored`: the top-level raid1 table is created
first (appended), leaf tables are prepended in front of it; at least one leg
must survive, else `MissingDisk`. -/
def generate_dm_tables_mirrored (g : DiskGroup) (vol : VolR) :
    Except LdmError (List DMTable) :=
  match
    mirroredLoop g vol.comps []
      ("0 " ++ toString vol.size ++ " raid raid1 1 128 " ++ toString vol.comps.length) 0
  with
  | .error e => .error e
  | .ok (leafs, tbl, found) =>
    if found = 0 then .error .missingDisk
    else
      .ok (leafs ++
        [{ name := "ldm_" ++ vol.dgname ++ "_" ++ vol.name, table := tbl ++ "\n" }])

/-- Loop of `_generate_dm_tables_spanned`: one `pos <pos+size> linear
<device> <data_start+start>` line per partition; a missing disk is
`MissingDisk`, and the running position must equal the partition's
`vol_offset`, else `Invalid`. -/
def spannedLoop (g : DiskGroup) :
    List Nat → String → Nat → Except LdmError String
  | [], tbl, _ => .ok tbl
  | pi :: rest, tbl, pos =>
    match g.parts.get? pi with
    | none => .error .oob
    | some part =>
      match part.disk.bind g.disks.get? with
      | none => .error .oob
      | some disk =>
        match disk.device with
        | none => .error .missingDisk
        | some dev =>
          if pos ≠ part.vol_offset then .error .invalid
          else
            spannedLoop g rest
              (tbl ++ toString pos ++ " " ++ toString (u64add pos part.size) ++
                " linear " ++ dev ++ " " ++
                toString (u64add disk.data_start part.start) ++ "\n")
              (u64add pos part.size)

/-- `_generate_dm_tables_spanned`: a single table, named from the raw
disk-group and volume names. -/
def generate_dm_tables_spanned (g : DiskGroup) (vol : VolR) (comp : CompR) :
    Except LdmError (List DMTable) :=
  match spannedLoop g comp.parts "" 0 with
  | .error e => .error e
  | .ok tbl =>
    .ok [{ name := "ldm_" ++ vol.dgname ++ "_" ++ vol.name, table := tbl }]

/-- Loop of `_generate_dm_tables_striped`: appends ` <device>
<data_start+start>` per partition; a missing disk is `MissingDisk`. -/
def stripedLoop (g : DiskGroup) : List Nat → String → Except LdmError String
  | [], tbl => .ok (tbl ++ "\n")
  | pi :: rest, tbl =>
    match g.parts.get? pi with
    | none => .error .oob
    | some part =>
      match part.disk.bind g.disks.get? with
      | none => .error .oob
      | some disk =>
        match disk.device with
        | none => .error .missingDisk
        | some dev =>
          stripedLoop g rest
            (tbl ++ " " ++ dev ++ " " ++ toString (u64add disk.data_start part.start))

/-- `_generate_dm_tables_striped`. -/
def generate_dm_tables_striped (g : DiskGroup) (vol : VolR) (comp : CompR) :
    Except LdmError (List DMTable) :=
  match
    stripedLoop g comp.parts
      ("0 " ++ toString vol.size ++ " striped " ++ toString comp.n_columns ++ " " ++
        toString comp.stripe_size)
  with
  | .error e => .error e
  | .ok tbl =>
    .ok [{ name := "ldm_" ++ vol.dgname ++ "_" ++ vol.name, table := tbl }]

/-- Loop of `_generate_dm_tables_raid5`: like the mirrored loop but with no
shape check on the component's partitions. -/
def raid5Loop (g : DiskGroup) :
    List Nat → List DMTable → String → Nat →
    Except LdmError (List DMTable × String × Nat)
  | [], leafs, tbl, found => .ok (leafs, tbl, found)
  | pi :: rest, leafs, tbl, found =>
    match g.parts.get? pi with
    | none => .error .oob
    | some part =>
      match generate_dm_table_part g part with
      | .error .missingDisk => raid5Loop g rest leafs (tbl ++ " - -") found
      | .error e => .error e
      | .ok t =>
        raid5Loop g rest (t :: leafs) (tbl ++ " - /dev/mapper/" ++ t.name) (found + 1)

/-- `_generate_dm_tables_raid5`: exactly one child component of type RAID;
`found < n_columns - 1` (computed in `uint32_t` arithmetic) is
`MissingDisk`. -/
def generate_dm_tables_raid5 (g : DiskGroup) (vol : VolR) :
    Except LdmError (List DMTable) :=
  if vol.comps.length ≠ 1 then .error .notSupported
  else
    match vol.comps.get? 0 with
    | none => .error .oob
    | some ci =>
      match g.comps.get? ci with
      | none => .error .oob
      | some comp =>
        if comp.type ≠ CompType.raid then .error .notSupported
        else
          match
            raid5Loop g comp.parts []
              ("0 " ++ toString vol.size ++ " raid raid5_ls 1 " ++
                toString comp.stripe_size ++ " " ++ toString comp.n_columns) 0
          with
          | .error e => .error e
          | .ok (leafs, tbl, found) =>
            if found < (comp.n_columns + 4294967295) % 4294967296 then
              .error .missingDisk
            else
              .ok (leafs ++
                [{ name := "ldm_" ++ vol.dgname ++ "_" ++ vol.name
                   table := tbl ++ "\n" }])

/-- `ldm_volume_generate_dm_tables`.  In the GEN branch the C reads
`g_array_index(vol->comps, ..., 0)` before any emptiness check; the model
makes the out-of-bounds read observable as `.oob`. -/
def ldm_volume_generate_dm_tables (g : DiskGroup) (vol : VolR) :
    Except LdmError (List DMTable) :=
  match vol.type with
  | .gen =>
    if vol.comps.length > 1 then generate_dm_tables_mirrored g vol
    else
      match vol.comps.get? 0 with
      | none => .error .oob
      | some ci =>
        match g.comps.get? ci with
        | none => .error .oob
        | some comp =>
          match comp.type with
          | .spanned => generate_dm_tables_spanned g vol comp
          | .striped => generate_dm_tables_striped g vol comp
          | .raid => .error .notSupported
  | .raid5 => generate_dm_tables_raid5 g vol

/-! ### Derived views of the generator output

Definitions used to state properties of the generated tables: which leaf
table a mirror leg contributes, running segment offsets, and name shapes. -/

/-- The leaf table a mirror leg contributes, if its disk is present: the
single partition of component `ci`, passed through
`generate_dm_table_part`.  Mirrors one iteration of the mirrored loop with
the `MissingDisk` recovery mapped to `none`. -/
def mirrorLegEntry (g : DiskGroup) (ci : Nat) : Option DMTable :=
  match g.comps.get? ci with
  | none => none
  | some comp =>
    match comp.parts.get? 0 with
    | none => none
    | some pi =>
      match g.parts.get? pi with
      | none => none
      | some part => (generate_dm_table_part g part).toOption

/-- Does `t` carry the escaped leaf-table name of some partition of `g`? -/
def escapedLeafName (g : DiskGroup) (t : DMTable) : Bool :=
  g.parts.any fun p =>
    match p.disk.bind g.disks.get? with
    | some dsk =>
      t.name == "ldm_" ++ g_uri_escape_string dsk.dgname ++ "_" ++
        g_uri_escape_string p.name
    | none => false

/-- Dereference a component's child list into partition records. -/
def derefParts (g : DiskGroup) (l : List Nat) : List PartR :=
  l.filterMap g.parts.get?

/-- Running segment offsets: each partition starts where the previous one
ended, in `uint64_t` arithmetic. -/
def runningOffsets (pos : Nat) : List Nat → List Nat
  | [] => []
  | s :: rest => pos :: runningOffsets (u64add pos s) rest

/-- Sum of sizes in `uint64_t` arithmetic. -/
def u64sum (sizes : List Nat) : Nat := sizes.foldl u64add 0

/-- The segment lines a spanned table is made of, rendered from a running
position: partition `k` contributes
`pos_k (pos_k ⊕ size_k) linear dev (data_start ⊕ start)` where `⊕` is
`uint64_t` addition and `pos_{k+1} = pos_k ⊕ size_k`.  Used to compare the
generator's output with the contiguous-segment reading of the spec. -/
def renderSegments (g : DiskGroup) : Nat → List PartR → String
  | _, [] => ""
  | pos, p :: rest =>
    (match p.disk.bind g.disks.get? with
     | none => ""
     | some dsk =>
       match dsk.device with
       | none => ""
       | some dev =>
         toString pos ++ " " ++ toString (u64add pos p.size) ++ " linear " ++
           dev ++ " " ++ toString (u64add dsk.data_start p.start) ++ "\n") ++
      renderSegments g (u64add pos p.size) rest

/-- Every child of the spanned component dereferences to a partition whose
disk reference is valid and whose disk has a device. -/
def spannedDisksPresent (g : DiskGroup) (l : List Nat) : Bool :=
  l.all fun pi =>
    match g.parts.get? pi with
    | none => false
    | some p =>
      match p.disk.bind g.disks.get? with
      | none => false
      | some dsk => dsk.device.isSome

/-! ### Concrete instances

Scenario S3 of the specification (two-leg mirror, both disks present), plus
the smaller configurations used to settle individual claims. -/

def diskA : DiskR :=
  { id := 10
    name := "d1"
    dgname := ""
    data_start := 0
    data_size := 0
    metadata_start := 0
    metadata_size := 0
    guid := "GA"
    device := none }

def diskB : DiskR := { diskA with id := 11, name := "d2", guid := "GB" }

def partA : PartR :=
  { id := 20
    parent_id := 30
    name := "pa"
    start := 256
    vol_offset := 0
    size := 1024
    index := 0
    disk_id := 10
    disk := none }

def partB : PartR := { partA with id := 21, parent_id := 31, name := "pb", disk_id := 11 }

def compA : CompR :=
  { id := 30
    parent_id := 40
    name := "ca"
    type := .spanned
    n_parts := 1
    parts := []
    stripe_size := 0
    n_columns := 0 }

def compB : CompR := { compA with id := 31, name := "cb" }

def volS3 : VolR :=
  { id := 40
    name := "v1"
    dgname := ""
    type := .gen
    size := 1024
    part_type := 7
    volume_type := 0
    flags := 0
    n_comps := 2
    comps := []
    id1 := none
    id2 := none
    size2 := 0
    hint := none }

/-- Draft group for S3, as produced by the VBLK decode loop. -/
def draftS3 : DiskGroup :=
  { guid := ""
    id := 1
    name := "dg1"
    sequence := 0
    n_disks := 2
    n_comps := 2
    n_parts := 2
    n_vols := 1
    disks := [diskA, diskB]
    comps := [compA, compB]
    parts := [partA, partB]
    vols := [volS3] }

def dIn1 : DiskInput :=
  { path := "/dev/sdb"
    disk_guid := "GA"
    group_guid := "GG"
    data_start := 128
    data_size := 4096
    metadata_start := 5000
    metadata_size := 100
    committed_seq := 4
    draft := draftS3 }

def dIn2 : DiskInput := { dIn1 with path := "/dev/sdc", disk_guid := "GB" }

/-- The S3 registry: both disks ingested. -/
def regS3 : List DiskGroup := ldmAddAll [] [dIn1, dIn2]

def gS3diskA : DiskR :=
  { diskA with
    dgname := "dg1"
    data_start := 128
    data_size := 4096
    metadata_start := 5000
    metadata_size := 100
    device := some "/dev/sdb" }

def gS3diskB : DiskR :=
  { diskB with
    dgname := "dg1"
    data_start := 128
    data_size := 4096
    metadata_start := 5000
    metadata_size := 100
    device := some "/dev/sdc" }

/-- The S3 disk group after resolution and device population. -/
def gS3 : DiskGroup :=
  { guid := "GG"
    id := 1
    name := "dg1"
    sequence := 4
    n_disks := 2
    n_comps := 2
    n_parts := 2
    n_vols := 1
    disks := [gS3diskA, gS3diskB]
    comps := [{ compA with parts := [0] }, { compB with parts := [1] }]
    parts := [{ partA with disk := some 0 }, { partB with disk := some 1 }]
    vols := [{ volS3 with dgname := "dg1", comps := [0, 1] }] }

/-- The S3 volume as stored in `gS3`. -/
def vS3 : VolR := { volS3 with dgname := "dg1", comps := [0, 1] }

/-- A disk group whose name contains a space, with one spanned GEN volume of
declared size 9999 backed by a single partition of size 2048: exercises both
the unescaped top-level table name (C2) and the unchecked total (C3). -/

def compEsc : CompR := { compA with id := 50, parent_id := 60, name := "ce", n_parts := 1 }

def partEsc : PartR :=
  { partA with id := 51, parent_id := 50, name := "pe", disk_id := 10, size := 2048 }

def volEsc : VolR := { volS3 with id := 60, name := "ve", size := 9999, n_comps := 1 }

def draftEsc : DiskGroup :=
  { guid := ""
    id := 2
    name := "d g"
    sequence := 0
    n_disks := 1
    n_comps := 1
    n_parts := 1
    n_vols := 1
    disks := [{ diskA with guid := "GE" }]
    comps := [compEsc]
    parts := [partEsc]
    vols := [volEsc] }

def dInEsc : DiskInput :=
  { path := "/dev/sdb"
    disk_guid := "GE"
    group_guid := "GE-G"
    data_start := 128
    data_size := 4096
    metadata_start := 5000
    metadata_size := 100
    committed_seq := 1
    draft := draftEsc }

/-- The component of `gEsc` after resolution. -/
def compEscR : CompR := { compEsc with parts := [0] }

def gEscDisk : DiskR :=
  { diskA with
    guid := "GE"
    dgname := "d g"
    data_start := 128
    data_size := 4096
    metadata_start := 5000
    metadata_size := 100
    device := some "/dev/sdb" }

/-- The resolved, device-populated group with the space in its name. -/
def gEsc : DiskGroup :=
  { guid := "GE-G"
    id := 2
    name := "d g"
    sequence := 1
    n_disks := 1
    n_comps := 1
    n_parts := 1
    n_vols := 1
    disks := [gEscDisk]
    comps := [compEscR]
    parts := [{ partEsc with disk := some 0 }]
    vols := [{ volEsc with dgname := "d g", comps := [0] }] }

/-- The volume of `gEsc`. -/
def vEsc : VolR := { volEsc with dgname := "d g", comps := [0] }

/-- A spanned GEN volume whose single partition has `vol_offset = 5 ≠ 0` and
whose disk has no device: the generator reports `MissingDisk`, not `Invalid`,
because the device check precedes the offset check. -/

def partMiss : PartR :=
  { partA with id := 71, parent_id := 70, name := "pm", vol_offset := 5, disk := some 0 }

def volMiss : VolR :=
  { volS3 with id := 80, name := "vm", size := 1024, n_comps := 1, dgname := "dgm", comps := [0] }

def gMiss : DiskGroup :=
  { guid := "GM-G"
    id := 3
    name := "dgm"
    sequence := 1
    n_disks := 1
    n_comps := 1
    n_parts := 1
    n_vols := 1
    disks := [{ diskA with guid := "GM", dgname := "dgm" }]
    comps := [{ compA with id := 70, parent_id := 80, name := "cm", parts := [0] }]
    parts := [partMiss]
    vols := [volMiss] }

/-- The volume of `gMiss`. -/
def vMiss : VolR := volMiss

/-- Draft with a single disk record of GUID `G` and nothing else: used with
two ingestion inputs that carry byte-identical metadata (same PRIVHEAD disk
GUID) but different device paths. -/
def draftDup : DiskGroup :=
  { guid := ""
    id := 4
    name := "dgd"
    sequence := 0
    n_disks := 1
    n_comps := 0
    n_parts := 0
    n_vols := 0
    disks := [{ diskA with guid := "G" }]
    comps := []
    parts := []
    vols := [] }

def dupA : DiskInput :=
  { path := "/dev/sdb"
    disk_guid := "G"
    group_guid := "GGd"
    data_start := 128
    data_size := 4096
    metadata_start := 5000
    metadata_size := 100
    committed_seq := 1
    draft := draftDup }

def dupB : DiskInput := { dupA with path := "/dev/sdc" }

/-- Draft whose single component owns two partitions that share `index = 0`
(both partition VBLKs lack the 0x08 flag, so `index` keeps its zeroed
default): resolution accepts it. -/

def partIdx1 : PartR := { partA with id := 91, parent_id := 90, name := "p1" }

def partIdx2 : PartR :=
  { partA with id := 92, parent_id := 90, name := "p2", start := 512, vol_offset := 1024 }

def compIdx : CompR := { compA with id := 90, parent_id := 95, name := "ci", n_parts := 2 }

def volIdx : VolR := { volS3 with id := 95, name := "vi", size := 2048, n_comps := 1 }

def draftIdx : DiskGroup :=
  { guid := ""
    id := 5
    name := "dgi"
    sequence := 0
    n_disks := 1
    n_comps := 1
    n_parts := 2
    n_vols := 1
    disks := [{ diskA with guid := "GI" }]
    comps := [compIdx]
    parts := [partIdx1, partIdx2]
    vols := [volIdx] }

/-- `draftIdx` after resolution. -/
def gIdx : DiskGroup :=
  { draftIdx with
    guid := "GI-G"
    disks := [{ diskA with guid := "GI", dgname := "dgi" }]
    comps := [{ compIdx with parts := [0, 1] }]
    parts := [{ partIdx1 with disk := some 0 }, { partIdx2 with disk := some 0 }]
    vols := [{ volIdx with dgname := "dgi", comps := [0] }] }

/-- A GEN volume with a declared (and observed) component count of zero:
`_parse_vblks` accepts it, and the GEN branch of the table generator then
reads element 0 of the empty component list. -/

def volEmpty : VolR := { volS3 with id := 99, name := "v9", size := 1024, n_comps := 0 }

def draftEmpty : DiskGroup :=
  { guid := ""
    id := 6
    name := "dg9"
    sequence := 0
    n_disks := 0
    n_comps := 0
    n_parts := 0
    n_vols := 1
    disks := []
    comps := []
    parts := []
    vols := [volEmpty] }

/-- `draftEmpty` after resolution. -/
def gEmpty : DiskGroup :=
  { draftEmpty with
    guid := "G9-G"
    vols := [{ volEmpty with dgname := "dg9" }] }

/-- The (component-less) volume of `gEmpty`. -/
def vEmpty : VolR := { volEmpty with dgname := "dg9" }

/-- VMDB header bytes whose four committed-count fields hold 1, 2, 3, 4 in
on-disk order. -/
def vmdbBytes : List Nat :=
  List.replicate 133 0 ++
    [0, 0, 0, 1, 0, 0, 0, 2, 0, 0, 0, 3, 0, 0, 0, 4]

/-- Two entries of a spanned VBLK record with `record_id = 7`. -/
def entry0 : Entry :=
  { record_id := 7, entry := 0, entries_total := 2, payload := [1, 2], offset := 0 }

def entry1 : Entry :=
  { record_id := 7, entry := 1, entries_total := 2, payload := [3, 4], offset := 16 }

/-- The three tables generated for the S3 mirror volume, in emitted order:
leg `pb`, leg `pa`, then the top-level raid1 table. -/
def tsS3 : List DMTable :=
  [{ name := "ldm_dg1_pb", table := "0 1024 linear /dev/sdc 384\n" },
   { name := "ldm_dg1_pa", table := "0 1024 linear /dev/sdb 384\n" },
   { name := "ldm_dg1_v1"
     table := "0 1024 raid raid1 1 128 2 - /dev/mapper/ldm_dg1_pa - /dev/mapper/ldm_dg1_pb\n" }]

/-- A second S3 disk whose VMDB committed sequence (5) differs from the
group's (4). -/
def dBad : DiskInput := { dIn1 with committed_seq := 5 }

/-- A consistent disk whose PRIVHEAD disk GUID matches no disk record of the
S3 group. -/
def dGhost : DiskInput := { dIn1 with disk_guid := "GX" }

/-! ## Helper lemmas -/

theorem firstIdx?_eq_none (p : α → Bool) (l : List α) (h : ∀ a ∈ l, p a = false) :
    firstIdx? p l = none := by
  induction l with
  | nil => rfl
  | cons a as ih =>
    have ha := h a (by simp)
    simp [firstIdx?, ha, ih fun x hx => h x (by simp [hx])]

theorem modifyIdx_self (f : α → α) (l : List α) (i : Nat) (a : α)
    (hg : l.get? i = some a) (hf : f a = a) : modifyIdx f l i = l := by
  induction l generalizing i with
  | nil => rfl
  | cons x xs ih =>
    cases i with
    | zero =>
      simp only [List.get?] at hg
      cases hg
      simp [modifyIdx, hf]
    | succ n =>
      simp only [List.get?] at hg
      simp [modifyIdx, ih n hg]

/-! ## Claim C5: helper lemmas on `firstIdx?`, `find?` and `modifyIdx` -/

theorem firstIdx?_some_get (p : α → Bool) (s : List α) (i : Nat)
    (h : firstIdx? p s = some i) : ∃ a, s.get? i = some a ∧ p a = true := by
  induction s generalizing i with
  | nil => cases h
  | cons x xs ih =>
    unfold firstIdx? at h
    by_cases hx : p x
    · rw [if_pos hx] at h
      cases h
      exact ⟨x, rfl, hx⟩
    · rw [if_neg hx] at h
      cases hfi : firstIdx? p xs with
      | none => rw [hfi] at h; cases h
      | some j =>
        rw [hfi] at h
        cases h
        obtain ⟨a, ha, hpa⟩ := ih j hfi
        exact ⟨a, ha, hpa⟩

theorem firstIdx?_none_find? (p : α → Bool) (s : List α)
    (h : firstIdx? p s = none) : s.find? p = none := by
  induction s with
  | nil => rfl
  | cons x xs ih =>
    unfold firstIdx? at h
    by_cases hx : p x
    · rw [if_pos hx] at h; cases h
    · rw [if_neg hx] at h
      rw [List.find?_cons_of_neg _ hx]
      exact ih (by cases hfi : firstIdx? p xs with
        | none => rfl
        | some j => rw [hfi] at h; cases h)

theorem find?_of_firstIdx? (p : α → Bool) (s : List α) (i : Nat) (a : α)
    (hfi : firstIdx? p s = some i) (hget : s.get? i = some a) :
    s.find? p = some a := by
  induction s generalizing i with
  | nil => cases hfi
  | cons x xs ih =>
    unfold firstIdx? at hfi
    by_cases hx : p x
    · rw [if_pos hx] at hfi
      cases hfi
      simp only [List.get?] at hget
      cases hget
      rw [List.find?_cons_of_pos _ hx]
    · rw [if_neg hx] at hfi
      cases hfi' : firstIdx? p xs with
      | none => rw [hfi'] at hfi; cases hfi
      | some j =>
        rw [hfi'] at hfi
        cases hfi
        simp only [List.get?] at hget
        rw [List.find?_cons_of_neg _ hx]
        exact ih j hfi' hget

theorem find?_modifyIdx_first (p : α → Bool) (f : α → α) (s : List α) (i : Nat) (a : α)
    (hfi : firstIdx? p s = some i) (hget : s.get? i = some a)
    (hpf : p (f a) = true) :
    (modifyIdx f s i).find? p = some (f a) := by
  induction s generalizing i with
  | nil => cases hfi
  | cons x xs ih =>
    unfold firstIdx? at hfi
    by_cases hx : p x
    · rw [if_pos hx] at hfi
      cases hfi
      simp only [List.get?] at hget
      cases hget
      simp only [modifyIdx]
      rw [List.find?_cons_of_pos _ hpf]
    · rw [if_neg hx] at hfi
      cases hfi' : firstIdx? p xs with
      | none => rw [hfi'] at hfi; cases hfi
      | some j =>
        rw [hfi'] at hfi
        cases hfi
        simp only [List.get?] at hget
        simp only [modifyIdx]
        rw [List.find?_cons_of_neg _ hx]
        exact ih j hfi' hget

theorem find?_modifyIdx_of_fail (p : α → Bool) (f : α → α) (s : List α) (i : Nat) (a : α)
    (hget : s.get? i = some a) (hpa : p a = false) (hpf : p (f a) = false) :
    (modifyIdx f s i).find? p = s.find? p := by
  induction s generalizing i with
  | nil => rfl
  | cons x xs ih =>
    cases i with
    | zero =>
      simp only [List.get?] at hget
      cases hget
      simp only [modifyIdx]
      rw [List.find?_cons_of_neg _ (by simp [hpf]), List.find?_cons_of_neg _ (by simp [hpa])]
    | succ n =>
      simp only [List.get?] at hget
      simp only [modifyIdx]
      by_cases hx : p x
      · rw [List.find?_cons_of_pos _ hx, List.find?_cons_of_pos _ hx]
      · rw [List.find?_cons_of_neg _ hx, List.find?_cons_of_neg _ hx]
        exact ih n hget

theorem find?_append_last (p : α → Bool) (s : List α) (x : α) :
    (s ++ [x]).find? p =
      match s.find? p with
      | some r => some r
      | none => if p x then some x else none := by
  induction s with
  | nil =>
    simp only [List.nil_append, List.find?]
    by_cases hx : p x
    · rw [hx, if_pos rfl]
    · rw [Bool.not_eq_true] at hx
      rw [hx, if_neg (by simp)]
  | cons y ys ih =>
    by_cases hy : p y
    · rw [List.cons_append, List.find?_cons_of_pos _ hy, List.find?_cons_of_pos _ hy]
    · rw [List.cons_append, List.find?_cons_of_neg _ hy, List.find?_cons_of_neg _ hy]
      exact ih

theorem map_range_set (T k : Nat) (f : Nat → α) (v : α) (_hk : k < T) :
    ((List.range T).map f).set k v =
      (List.range T).map fun j => if j = k then v else f j := by
  apply List.ext_getElem
  · simp
  · intro i h1 h2
    simp only [List.getElem_set, List.getElem_map, List.getElem_range]
    by_cases hik : k = i
    · simp [hik]
    · rw [if_neg hik, if_neg (fun h => hik h.symm)]

theorem replicate_set_eq_map (T k : Nat) (v z : α) (hT : k < T) :

    (List.replicate T z).set k v =
      (List.range T).map fun j => if j = k then v else z := by
  have : List.replicate T z = (List.range T).map fun _ => z := by
    simp [List.map_const']
  rw [this, map_range_set T k _ v hT]

theorem find?_perm_unique (p : α → Bool) (l₁ l₂ : List α) (hp : l₁.Perm l₂)
    (huniq : ∀ a ∈ l₁, ∀ b ∈ l₁, p a = true → p b = true → a = b) :
    l₁.find? p = l₂.find? p := by
  cases h1 : l₁.find? p with
  | none =>
    cases h2 : l₂.find? p with
    | none => rfl
    | some b =>
      have hb : b ∈ l₁ := hp.symm.subset (List.mem_of_find?_eq_some h2)
      have := List.find?_eq_none.mp h1 b hb
      exact absurd (List.find?_some h2) (by simpa using this)
  | some a =>
    have ha : a ∈ l₂ := hp.subset (List.mem_of_find?_eq_some h1)
    cases h2 : l₂.find? p with
    | none =>
      have := List.find?_eq_none.mp h2 a ha
      exact absurd (List.find?_some h1) (by simpa using this)
    | some b =>
      have hb : b ∈ l₁ := hp.symm.subset (List.mem_of_find?_eq_some h2)
      rw [huniq a (List.mem_of_find?_eq_some h1) b hb
        (List.find?_some h1) (List.find?_some h2)]

theorem any_perm (p : α → Bool) (l₁ l₂ : List α) (hp : l₁.Perm l₂) :
    l₁.any p = l₂.any p := by
  cases h1 : l₁.any p
  · cases h2 : l₂.any p
    · rfl
    · obtain ⟨x, hx, hpx⟩ := List.any_eq_true.mp h2
      have : l₁.any p = true := List.any_eq_true.mpr ⟨x, hp.symm.subset hx, hpx⟩
      rw [h1] at this
      cases this
  · obtain ⟨x, hx, hpx⟩ := List.any_eq_true.mp h1
    exact (List.any_eq_true.mpr ⟨x, hp.subset hx, hpx⟩).symm

/-- Characterisation of the reassembly table in terms of the entry stream:
whether a record exists, how many entries were found, the (shared)
`entries_total`, and the content of every slot of its buffer are all
functions of membership, count and unique search over the stream. -/
theorem reassemble_spec (sz : Nat) : ∀ l : List Entry,
    (∀ e₁ ∈ l, ∀ e₂ ∈ l, e₁.record_id = e₂.record_id →
      e₁.entries_total = e₂.entries_total ∧ (e₁.entry = e₂.entry → e₁ = e₂)) →
    (∀ e ∈ l, e.entry < e.entries_total) →
    ∀ rid : Nat,
      ((lookupRec rid (reassemble sz l)).isSome
          = l.any fun e => e.record_id == rid) ∧
      (∀ r, lookupRec rid (reassemble sz l) = some r →
        r.entries_found = l.countP (fun e => e.record_id == rid) ∧
        (∀ e ∈ l, e.record_id = rid → r.entries_total = e.entries_total) ∧
        r.data = (List.range r.entries_total).map fun j =>
          match l.find? (fun e => e.record_id == rid && e.entry == j) with
          | some e => e.payload
          | none => List.replicate sz 0) := by
  intro l
  induction l using List.reverseRecOn with
  | nil =>
    intro _ _ rid
    exact ⟨rfl, by intro r hr; cases hr⟩
  | append_singleton l e ih =>
    intro hwf hlt rid
    have hwf' : ∀ e₁ ∈ l, ∀ e₂ ∈ l, e₁.record_id = e₂.record_id →
        e₁.entries_total = e₂.entries_total ∧ (e₁.entry = e₂.entry → e₁ = e₂) :=
      fun a ha b hb => hwf a (by simp [ha]) b (by simp [hb])
    have hlt' : ∀ e ∈ l, e.entry < e.entries_total :=
      fun a ha => hlt a (by simp [ha])
    have hre : reassemble sz (l ++ [e]) = addSpanned sz (reassemble sz l) e := by
      unfold reassemble
      rw [List.foldl_append]
      rfl
    by_cases hrid : e.record_id = rid
    · -- the appended entry belongs to the queried record
      subst hrid
      obtain ⟨ih1, ih2⟩ := ih hwf' hlt' e.record_id
      cases hfi : firstIdx? (fun r => r.record_id == e.record_id) (reassemble sz l) with
      | none =>
        have hlooknone : (reassemble sz l).find?
            (fun r => r.record_id == e.record_id) = none :=
          firstIdx?_none_find? _ _ hfi
        have hlooknone' : lookupRec e.record_id (reassemble sz l) = none := hlooknone
        have hanyl : (l.any fun x => x.record_id == e.record_id) = false := by
          rw [← ih1, hlooknone']
          rfl
        have hnol : ∀ x ∈ l, (x.record_id == e.record_id) = false := by
          intro x hx
          by_contra hc
          rw [List.any_eq_true.mpr ⟨x, hx, by simpa using hc⟩] at hanyl
          cases hanyl
        have hlook : lookupRec e.record_id (reassemble sz (l ++ [e])) = some
            { record_id := e.record_id
              entries_total := e.entries_total
              entries_found := 1
              offset := e.offset
              data := (List.replicate e.entries_total (List.replicate sz 0)).set
                e.entry e.payload } := by
          rw [hre]
          unfold addSpanned
          rw [hfi]
          unfold lookupRec
          rw [find?_append_last, hlooknone]
          simp
        rw [hlook]
        refine ⟨by simp [List.any_append], ?_⟩
        intro r hr
        cases hr
        refine ⟨?_, ?_, ?_⟩
        · rw [List.countP_append]
          have h0 : l.countP (fun x => x.record_id == e.record_id) = 0 := by
            rw [List.countP_eq_zero]
            intro a ha
            simp [hnol a ha]
          simp [h0, List.countP_cons]
        · intro e' he' hr'
          rcases List.mem_append.mp he' with h' | h'
          · exact absurd (by simpa using hr' : (e'.record_id == e.record_id) = true)
              (by simp [hnol e' h'])
          · have : e' = e := by simpa using h'
            rw [this]
        · rw [replicate_set_eq_map _ _ _ _ (hlt e (by simp))]
          apply List.map_congr_left
          intro j hj
          have hfl : l.find? (fun x => x.record_id == e.record_id && x.entry == j)
              = none := by
            rw [List.find?_eq_none]
            intro x hx
            simp [hnol x hx]
          rw [find?_append_last, hfl]
          by_cases hje : j = e.entry
          · subst hje
            simp
          · have hbe : (e.entry == j) = false := by
              simp [Ne.symm hje]
            simp [hbe, hje]
      | some i =>
        obtain ⟨r₀, hgr₀, hpr₀⟩ := firstIdx?_some_get _ _ _ hfi
        have hlookS : lookupRec e.record_id (reassemble sz l) = some r₀ :=
          find?_of_firstIdx? _ _ _ _ hfi hgr₀
        obtain ⟨hfound, htot, hdata⟩ := ih2 r₀ hlookS
        have hlook : lookupRec e.record_id (reassemble sz (l ++ [e])) = some
            { r₀ with
              entries_found := r₀.entries_found + 1
              data := r₀.data.set e.entry e.payload } := by
          rw [hre]
          unfold addSpanned
          rw [hfi]
          exact find?_modifyIdx_first _ _ _ i r₀ hfi hgr₀ hpr₀
        rw [hlook]
        have hex : ∃ x ∈ l, (x.record_id == e.record_id) = true := by
          have hS : (lookupRec e.record_id (reassemble sz l)).isSome = true := by
            rw [hlookS]
            rfl
          rw [ih1] at hS
          exact List.any_eq_true.mp hS
        obtain ⟨x₀, hx₀, hpx₀⟩ := hex
        have hx₀rid : x₀.record_id = e.record_id := by simpa using hpx₀
        have htote : r₀.entries_total = e.entries_total := by
          rw [htot x₀ hx₀ hx₀rid]
          exact (hwf x₀ (by simp [hx₀]) e (by simp) hx₀rid).1
        refine ⟨by simp [List.any_append], ?_⟩
        intro r hr
        cases hr
        refine ⟨?_, ?_, ?_⟩
        · show r₀.entries_found + 1 = _
          rw [hfound, List.countP_append]
          simp [List.countP_cons]
        · intro e' he' hr'
          show r₀.entries_total = e'.entries_total
          rcases List.mem_append.mp he' with h' | h'
          · exact htot e' h' hr'
          · have : e' = e := by simpa using h'
            rw [this]
            exact htote
        · show r₀.data.set e.entry e.payload = _
          have htlt : e.entry < r₀.entries_total := by
            rw [htote]
            exact hlt e (by simp)
          rw [hdata, map_range_set _ _ _ _ htlt]
          apply List.map_congr_left
          intro j hj
          rw [find?_append_last]
          by_cases hje : j = e.entry
          · subst hje
            cases hfl : l.find?
                (fun x => x.record_id == e.record_id && x.entry == e.entry) with
            | some x =>
              have hx : x ∈ l := List.mem_of_find?_eq_some hfl
              have hpx := List.find?_some hfl
              rw [Bool.and_eq_true] at hpx
              have hxr : x.record_id = e.record_id := by simpa using hpx.1
              have hxe : x.entry = e.entry := by simpa using hpx.2
              have hxeq : x = e := (hwf x (by simp [hx]) e (by simp) hxr).2 hxe
              simp [hxeq]
            | none => simp
          · have hbe : (e.entry == j) = false := by
              simp [Ne.symm hje]
            cases hfl : l.find?
                (fun x => x.record_id == e.record_id && x.entry == j) with
            | some x => simp [hje]
            | none => simp [hbe, hje]
    · -- the appended entry belongs to a different record
      have hne : (e.record_id == rid) = false := by simpa using hrid
      obtain ⟨ih1, ih2⟩ := ih hwf' hlt' rid
      have hlook : lookupRec rid (reassemble sz (l ++ [e]))
          = lookupRec rid (reassemble sz l) := by
        rw [hre]
        unfold addSpanned
        cases hfi : firstIdx? (fun r => r.record_id == e.record_id)
            (reassemble sz l) with
        | none =>
          unfold lookupRec
          rw [find?_append_last]
          cases hfind : (reassemble sz l).find? (fun r => r.record_id == rid) with
          | some r => rfl
          | none => simp [hne]
        | some i =>
          obtain ⟨a, hga, hpa⟩ := firstIdx?_some_get _ _ _ hfi
          have hqa : (a.record_id == rid) = false := by
            have : a.record_id = e.record_id := by simpa using hpa
            simp [this, hrid]
          exact find?_modifyIdx_of_fail _ _ _ i a hga hqa hqa
      rw [hlook]
      constructor
      · rw [ih1, List.any_append]
        simp [hne]
      · intro r hr
        obtain ⟨hfound, htot, hdata⟩ := ih2 r hr
        refine ⟨?_, ?_, ?_⟩
        · rw [hfound, List.countP_append]
          simp [hne, List.countP_cons]
        · intro e' he' hr'
          rcases List.mem_append.mp he' with h' | h'
          · exact htot e' h' hr'
          · have : e' = e := by simpa using h'
            rw [this] at hr'
            exact absurd hr' hrid
        · rw [hdata]
          apply List.map_congr_left
          intro j hj
          rw [find?_append_last]
          cases hfl : l.find? (fun x => x.record_id == rid && x.entry == j) with
          | some x => rfl
          | none => simp [hne]

/-- C5: for a well-formed spanned VBLK record (all entries share
`entries_total`, entry numbers are in range and distinct per record),
delivering the entries of the VBLK stream in any permutation yields the same
reassembled record buffer — the same slot data, found count and expected
total for every `record_id`.  (The `offset` field, used only for error
messages, is the position of the first arriving entry and is not part of the
buffer.) -/
theorem C5_reassembly_order_independent (sz : Nat) (l₁ l₂ : List Entry)
    (hp : l₁.Perm l₂)
    (hwf : ∀ e₁ ∈ l₁, ∀ e₂ ∈ l₁, e₁.record_id = e₂.record_id →
      e₁.entries_total = e₂.entries_total ∧ (e₁.entry = e₂.entry → e₁ = e₂))
    (hlt : ∀ e ∈ l₁, e.entry < e.entries_total) (rid : Nat) :
    recBuf sz l₁ rid = recBuf sz l₂ rid := by
  have hwf₂ : ∀ e₁ ∈ l₂, ∀ e₂ ∈ l₂, e₁.record_id = e₂.record_id →
      e₁.entries_total = e₂.entries_total ∧ (e₁.entry = e₂.entry → e₁ = e₂) :=
    fun a ha b hb => hwf a (hp.symm.subset ha) b (hp.symm.subset hb)
  have hlt₂ : ∀ e ∈ l₂, e.entry < e.entries_total :=
    fun a ha => hlt a (hp.symm.subset ha)
  obtain ⟨ih1a, ih2a⟩ := reassemble_spec sz l₁ hwf hlt rid
  obtain ⟨ih1b, ih2b⟩ := reassemble_spec sz l₂ hwf₂ hlt₂ rid
  have hany := any_perm (fun e => e.record_id == rid) l₁ l₂ hp
  unfold recBuf
  cases h1 : lookupRec rid (reassemble sz l₁) with
  | none =>
    cases h2 : lookupRec rid (reassemble sz l₂) with
    | none => rfl
    | some r₂ =>
      exfalso
      rw [h1] at ih1a
      rw [h2] at ih1b
      rw [← ih1a, ← ih1b] at hany
      cases hany
  | some r₁ =>
    cases h2 : lookupRec rid (reassemble sz l₂) with
    | none =>
      exfalso
      rw [h1] at ih1a
      rw [h2] at ih1b
      rw [← ih1a, ← ih1b] at hany
      cases hany
    | some r₂ =>
      obtain ⟨hf1, ht1, hd1⟩ := ih2a r₁ h1
      obtain ⟨hf2, ht2, hd2⟩ := ih2b r₂ h2
      have hex : ∃ x ∈ l₁, (x.record_id == rid) = true := by
        have hS : (lookupRec rid (reassemble sz l₁)).isSome = true := by
          rw [h1]
          rfl
        rw [ih1a] at hS
        exact List.any_eq_true.mp hS
      obtain ⟨x₀, hx₀, hpx₀⟩ := hex
      have hx₀r : x₀.record_id = rid := by simpa using hpx₀
      have htt : r₁.entries_total = r₂.entries_total := by
        rw [ht1 x₀ hx₀ hx₀r, ht2 x₀ (hp.subset hx₀) hx₀r]
      have hff : r₁.entries_found = r₂.entries_found := by
        rw [hf1, hf2, hp.countP_eq]
      have hdd : r₁.data = r₂.data := by
        rw [hd1, hd2, htt]
        apply List.map_congr_left
        intro j hj
        rw [find?_perm_unique _ l₁ l₂ hp ?uniq]
        case uniq =>
          intro a ha b hb hpa hpb
          rw [Bool.and_eq_true] at hpa hpb
          have har : a.record_id = rid := by simpa using hpa.1
          have hbr : b.record_id = rid := by simpa using hpb.1
          have hae : a.entry = j := by simpa using hpa.2
          have hbe : b.entry = j := by simpa using hpb.2
          exact (hwf a ha b hb (by rw [har, hbr])).2 (by rw [hae, hbe])
      simp [hdd, hff, htt]

/-- Witness for C5: the two-entry record with id 7 reassembles identically
when its entries are swapped. -/
theorem C5_witness :
    recBuf 2 [entry0, entry1] 7 = recBuf 2 [entry1, entry0] 7 :=
  C5_reassembly_order_independent 2 [entry0, entry1] [entry1, entry0]
    (List.Perm.swap entry1 entry0 []) (by decide) (by decide) 7

/-! ## Claim C4 -/

/-- C4: for every registry and every disk whose disk-group GUID matches an
existing group but whose VMDB `committed_seq` differs from that group's
`sequence`, `ldm_add_fd` fails with `Inconsistent` and the registry is
returned exactly as it was. -/
theorem C4_inconsistent_disk_rejected (reg : List DiskGroup) (d : DiskInput)
    (i : Nat) (g : DiskGroup)
    (hi : lastMatchIdx? (fun g => g.guid == d.group_guid) reg = some i)
    (hg : reg.get? i = some g)
    (hseq : d.committed_seq ≠ g.sequence) :
    ldm_add_fd reg d = (reg, some LdmError.inconsistent) := by
  have hg' : reg[i]? = some g := by simpa using hg
  simp [ldm_add_fd, hi, hg', hseq]

/-- Witness for C4: adding `dBad` (committed sequence 5) to the S3 registry
(group sequence 4) reports `Inconsistent` and keeps the registry. -/
theorem C4_witness :
    ldm_add_fd [gS3] dBad = ([gS3], some LdmError.inconsistent) :=
  C4_inconsistent_disk_rejected [gS3] dBad 0 gS3 rfl rfl (by decide)

/-! ## Claim C10 -/

/-- C10: a disk that is consistent with its existing group but whose PRIVHEAD
disk GUID matches no disk record of the group is accepted without error and
leaves the registry (in particular every disk record) unchanged. -/
theorem C10_unmatched_disk_guid_silent (reg : List DiskGroup) (d : DiskInput)
    (i : Nat) (g : DiskGroup)
    (hi : lastMatchIdx? (fun g => g.guid == d.group_guid) reg = some i)
    (hg : reg.get? i = some g)
    (hseq : d.committed_seq = g.sequence)
    (hmatch : ∀ k ∈ g.disks, k.guid ≠ d.disk_guid) :
    ldm_add_fd reg d = (reg, none) := by
  have hupd : updateDeviceInfo d g.disks = g.disks := by
    unfold updateDeviceInfo
    rw [firstIdx?_eq_none _ _ fun k hk => by
      simpa using hmatch k hk]
  have hmod : modifyIdx (fun g => { g with disks := updateDeviceInfo d g.disks }) reg i
      = reg :=
    modifyIdx_self _ reg i g hg (by rw [hupd])
  have hg' : reg[i]? = some g := by simpa using hg
  simp [ldm_add_fd, hi, hg', hseq, hmod]

/-- Witness for C10: `dGhost` (disk GUID `GX`, consistent sequence) is added
to the S3 registry without error and without any change. -/
theorem C10_witness :
    ldm_add_fd [gS3] dGhost = ([gS3], none) :=
  C10_unmatched_disk_guid_silent [gS3] dGhost 0 gS3 rfl rfl (by decide) (by decide)

/-! ## Claim C8 -/

/-- Counterexample to C8: with the four committed-count fields holding
1, 2, 3, 4 in on-disk order, the parser's disk count is 4 (the fourth field),
not 1 (the first field) as the claim states. -/
theorem C8_counterexample :
    (vmdbCounts vmdbBytes).n_disks = 4 ∧
    (vmdbCountsClaim vmdbBytes).n_disks = 1 ∧
    vmdbCounts vmdbBytes ≠ vmdbCountsClaim vmdbBytes :=
  ⟨rfl, rfl, by decide⟩

/-- C8 (amended): in the VMDB layout the four committed VBLK counts appear in
the order volumes, components, partitions, disks; the parser takes the volume
count from the first u32 after `committed_seq` and `pending_seq`, the
component count from the second, the partition count from the third and the
disk count from the fourth. -/
theorem C8_vmdb_count_order (b : List Nat) :
    (vmdbCounts b).n_vols = readBE32 b (vmdbOffPendingSeq + 8) ∧
    (vmdbCounts b).n_comps = readBE32 b (vmdbOffPendingSeq + 12) ∧
    (vmdbCounts b).n_parts = readBE32 b (vmdbOffPendingSeq + 16) ∧
    (vmdbCounts b).n_disks = readBE32 b (vmdbOffPendingSeq + 20) :=
  ⟨rfl, rfl, rfl, rfl⟩

/-! ## Claim C6 -/

theorem map_modifyIdx_eq (f : α → β) (g : α → α) (l : List α) (i : Nat)
    (h : ∀ a, f (g a) = f a) : (modifyIdx g l i).map f = l.map f := by
  induction l generalizing i with
  | nil => rfl
  | cons x xs ih =>
    cases i with
    | zero => simp [modifyIdx, h]
    | succ n => simp [modifyIdx, ih n]

theorem firstIdx?_comp_map (q : β → Bool) (f : α → β) (l : List α) :
    firstIdx? (fun a => q (f a)) l = firstIdx? q (l.map f) := by
  induction l with
  | nil => rfl
  | cons x xs ih => simp [firstIdx?, ih]

theorem modifyIdx_comm (f g : α → α) (l : List α) (i j : Nat) (hij : i ≠ j) :
    modifyIdx g (modifyIdx f l i) j = modifyIdx f (modifyIdx g l j) i := by
  induction l generalizing i j with
  | nil => rfl
  | cons x xs ih =>
    cases i with
    | zero =>
      cases j with
      | zero => exact absurd rfl hij
      | succ m => simp [modifyIdx]
    | succ n =>
      cases j with
      | zero => simp [modifyIdx]
      | succ m =>
        simp only [modifyIdx, List.cons.injEq, true_and]
        exact ih n m (by omega)

/-- The device-population loops of two disks with different PRIVHEAD disk
GUIDs touch different disk records and therefore commute. -/
theorem updateDeviceInfo_comm (d₁ d₂ : DiskInput) (ds : List DiskR)
    (hg : d₁.disk_guid ≠ d₂.disk_guid) :
    updateDeviceInfo d₂ (updateDeviceInfo d₁ ds)
      = updateDeviceInfo d₁ (updateDeviceInfo d₂ ds) := by
  have hpres : ∀ (d : DiskInput) (x : DiskR), (privheadUpdate d x).guid = x.guid :=
    fun _ _ => rfl
  have hmap : ∀ (d : DiskInput) (x : List DiskR),
      (updateDeviceInfo d x).map (fun k => k.guid) = x.map (fun k => k.guid) := by
    intro d x
    unfold updateDeviceInfo
    cases hfi : firstIdx? (fun k => k.guid == d.disk_guid) x with
    | none => rfl
    | some j => exact map_modifyIdx_eq _ _ x j (hpres d)
  have hfi_stable : ∀ (d d' : DiskInput) (x : List DiskR),
      firstIdx? (fun k : DiskR => k.guid == d.disk_guid) (updateDeviceInfo d' x)
        = firstIdx? (fun k : DiskR => k.guid == d.disk_guid) x := by
    intro d d' x
    have t1 := firstIdx?_comp_map (fun gd => gd == d.disk_guid)
      (fun k : DiskR => k.guid) (updateDeviceInfo d' x)
    have t2 := firstIdx?_comp_map (fun gd => gd == d.disk_guid)
      (fun k : DiskR => k.guid) x
    rw [hmap d' x] at t1
    exact t1.trans t2.symm
  have unfold1 : ∀ (d : DiskInput) (x : List DiskR),
      firstIdx? (fun k : DiskR => k.guid == d.disk_guid) x = none →
      updateDeviceInfo d x = x := by
    intro d x h
    unfold updateDeviceInfo
    rw [h]
  have unfold2 : ∀ (d : DiskInput) (x : List DiskR) (j : Nat),
      firstIdx? (fun k : DiskR => k.guid == d.disk_guid) x = some j →
      updateDeviceInfo d x = modifyIdx (privheadUpdate d) x j := by
    intro d x j h
    unfold updateDeviceInfo
    rw [h]
  cases h1 : firstIdx? (fun k : DiskR => k.guid == d₁.disk_guid) ds with
  | none =>
    have e1 := unfold1 d₁ ds h1
    have e2 := unfold1 d₁ (updateDeviceInfo d₂ ds)
      ((hfi_stable d₁ d₂ ds).trans h1)
    rw [e1, e2]
  | some i =>
    cases h2 : firstIdx? (fun k : DiskR => k.guid == d₂.disk_guid) ds with
    | none =>
      have e2 := unfold1 d₂ ds h2
      have e1 := unfold1 d₂ (updateDeviceInfo d₁ ds)
        ((hfi_stable d₂ d₁ ds).trans h2)
      rw [e1, e2]
    | some j =>
      have hij : i ≠ j := by
        obtain ⟨a, hga, hpa⟩ := firstIdx?_some_get _ _ _ h1
        obtain ⟨b, hgb, hpb⟩ := firstIdx?_some_get _ _ _ h2
        intro hEq
        rw [hEq, hgb] at hga
        cases hga
        exact hg (by
          have h1' : a.guid = d₁.disk_guid := by simpa using hpa
          have h2' : a.guid = d₂.disk_guid := by simpa using hpb
          rw [← h1', h2'])
      have u1 := unfold2 d₁ ds i h1
      have u2 := unfold2 d₂ ds j h2
      have v1 := unfold2 d₂ (updateDeviceInfo d₁ ds) j
        ((hfi_stable d₂ d₁ ds).trans h2)
      have v2 := unfold2 d₁ (updateDeviceInfo d₂ ds) i
        ((hfi_stable d₁ d₂ ds).trans h1)
      rw [v1, v2, u1, u2]
      exact modifyIdx_comm _ _ ds i j hij

theorem resolve_guid_sequence (dg g : DiskGroup) (h : resolve dg = .ok g) :
    g.guid = dg.guid ∧ g.sequence = dg.sequence := by
  unfold resolve at h
  split at h
  · cases h
  split at h
  · cases h
  split at h
  · cases h
  split at h
  · cases h
  split at h
  · cases h
  split at h
  · cases h
  split at h
  · cases h
  cases h
  exact ⟨rfl, rfl⟩

/-- With a consistent set of inputs and a failing resolution, every add
fails and the registry stays empty. -/
theorem ldmAddAll_resolve_fails (D : DiskGroup) (gg : String) (s : Nat) (e : LdmError)
    (hres : resolve { D with guid := gg, sequence := s } = .error e)
    (l : List DiskInput)
    (hsame : ∀ d ∈ l, d.draft = D ∧ d.group_guid = gg ∧ d.committed_seq = s) :
    ldmAddAll [] l = [] := by
  induction l with
  | nil => rfl
  | cons d rest ih =>
    obtain ⟨hD, hgg, hs⟩ := hsame d (by simp)
    have hadd : ldm_add_fd [] d = ([], some e) := by
      simp only [ldm_add_fd, lastMatchIdx?]
      rw [hD, hgg, hs, hres]
    have hstep : ldmAddAll [] (d :: rest) = ldmAddAll (ldm_add_fd [] d).1 rest := rfl
    have h0 : (ldm_add_fd [] d).1 = [] := by rw [hadd]
    rw [hstep, h0]
    exact ih fun d' hd' => hsame d' (by simp [hd'])

/-- On a one-group registry holding the resolved group, each consistent add
just runs the device-population loop on the group's disks. -/
theorem ldmAddAll_consistent (D : DiskGroup) (gg : String) (s : Nat) (G : DiskGroup)
    (hguid : G.guid = gg) (hseq : G.sequence = s) :
    ∀ (l : List DiskInput) (ds : List DiskR),
      (∀ d ∈ l, d.draft = D ∧ d.group_guid = gg ∧ d.committed_seq = s) →
      ldmAddAll [{ G with disks := ds }] l
        = [{ G with disks := l.foldl (fun a d => updateDeviceInfo d a) ds }] := by
  intro l
  induction l with
  | nil =>
    intro ds _
    rfl
  | cons d rest ih =>
    intro ds hsame
    obtain ⟨hD, hgg, hs⟩ := hsame d (by simp)
    have hadd : ldm_add_fd [{ G with disks := ds }] d
        = ([{ G with disks := updateDeviceInfo d ds }], none) := by
      have hbeq : (({ G with disks := ds } : DiskGroup).guid == d.group_guid) = true := by
        simp [hguid, hgg]
      simp only [ldm_add_fd, lastMatchIdx?, hbeq, if_true]
      have hs' : ¬ d.committed_seq ≠ ({ G with disks := ds } : DiskGroup).sequence := by
        simp [hs, hseq]
      simp [hs', modifyIdx]
    have hstep : ldmAddAll [{ G with disks := ds }] (d :: rest)
        = ldmAddAll (ldm_add_fd [{ G with disks := ds }] d).1 rest := rfl
    have h1 : (ldm_add_fd [{ G with disks := ds }] d).1
        = [{ G with disks := updateDeviceInfo d ds }] := by rw [hadd]
    rw [hstep, h1, List.foldl_cons]
    exact ih (updateDeviceInfo d ds) (fun d' hd' => hsame d' (by simp [hd']))

/-- C6 (amended): adding the disks of one consistent disk group (identical
VBLK/VMDB metadata: same draft records, group GUID and committed sequence)
to a fresh registry is order-independent, provided the disks carry pairwise
distinct PRIVHEAD disk GUIDs.  (With literally identical PRIVHEADs — equal
disk GUIDs — the device path of the matched record is last-writer-wins and
order matters; see the counterexample.) -/
theorem C6_add_order_independent (l₁ l₂ : List DiskInput) (hp : l₁.Perm l₂)
    (D : DiskGroup) (gg : String) (s : Nat)
    (hsame : ∀ d ∈ l₁, d.draft = D ∧ d.group_guid = gg ∧ d.committed_seq = s)
    (hdist : l₁.Pairwise fun a b => a.disk_guid ≠ b.disk_guid) :
    ldmAddAll [] l₁ = ldmAddAll [] l₂ := by
  have hsame₂ : ∀ d ∈ l₂, d.draft = D ∧ d.group_guid = gg ∧ d.committed_seq = s :=
    fun d hd => hsame d (hp.symm.subset hd)
  have hcomm : ∀ x ∈ l₁, ∀ y ∈ l₁, ∀ z : List DiskR,
      updateDeviceInfo y (updateDeviceInfo x z)
        = updateDeviceInfo x (updateDeviceInfo y z) := by
    intro x hx y hy z
    by_cases hxy : x = y
    · rw [hxy]
    · exact (updateDeviceInfo_comm x y z
        (List.Pairwise.forall (fun a b h => h.symm) hdist hx hy hxy)).symm ▸
        updateDeviceInfo_comm x y z
          (List.Pairwise.forall (fun a b h => h.symm) hdist hx hy hxy)
  cases hres : resolve { D with guid := gg, sequence := s } with
  | error e =>
    rw [ldmAddAll_resolve_fails D gg s e hres l₁ hsame,
      ldmAddAll_resolve_fails D gg s e hres l₂ hsame₂]
  | ok G =>
    obtain ⟨hguid, hseq⟩ := resolve_guid_sequence _ _ hres
    have hfold : l₁.foldl (fun a d => updateDeviceInfo d a) G.disks
        = l₂.foldl (fun a d => updateDeviceInfo d a) G.disks :=
      hp.foldl_eq' (fun x hx y hy z => hcomm x hx y hy z) G.disks
    cases hl1 : l₁ with
    | nil =>
      have : l₂ = [] := (hl1 ▸ hp).symm.eq_nil
      rw [this]
    | cons d₀ rest =>
      have hne₂ : l₂ ≠ [] := by
        intro hEq
        rw [hEq] at hp
        rw [hp.eq_nil] at hl1
        cases hl1
      obtain ⟨d₀', rest', hl2⟩ := List.exists_cons_of_ne_nil hne₂
      have hstep : ∀ (d : DiskInput) (tail : List DiskInput),
          (∀ x ∈ d :: tail, x.draft = D ∧ x.group_guid = gg ∧ x.committed_seq = s) →
          ldmAddAll [] (d :: tail)
            = [{ G with disks :=
                (d :: tail).foldl (fun a x => updateDeviceInfo x a) G.disks }] := by
        intro d tail hsm
        obtain ⟨hD, hgg, hs⟩ := hsm d (by simp)
        have hadd : ldm_add_fd [] d
            = ([{ G with disks := updateDeviceInfo d G.disks }], none) := by
          simp only [ldm_add_fd, lastMatchIdx?]
          rw [hD, hgg, hs, hres]
          rfl
        have hstep0 : ldmAddAll [] (d :: tail) = ldmAddAll (ldm_add_fd [] d).1 tail := rfl
        have h1 : (ldm_add_fd [] d).1
            = [{ G with disks := updateDeviceInfo d G.disks }] := by rw [hadd]
        rw [hstep0, h1, List.foldl_cons]
        exact ldmAddAll_consistent D gg s G hguid hseq tail
          (updateDeviceInfo d G.disks) (fun x hx => hsm x (by simp [hx]))
      rw [hl1] at hsame hfold
      rw [hl2] at hsame₂ hfold
      rw [hl2, hstep d₀ rest hsame, hstep d₀' rest' hsame₂, hfold]

/-- Counterexample to C6: two "disks" whose metadata — including the PRIVHEAD
disk GUID — is byte-for-byte identical but whose device paths differ produce
different registries in the two orders: the single matching disk record's
`device` is last-writer-wins. -/
theorem C6_counterexample :
    dupA.draft = dupB.draft ∧
    dupA.disk_guid = dupB.disk_guid ∧
    dupA.group_guid = dupB.group_guid ∧
    dupA.committed_seq = dupB.committed_seq ∧
    [dupA, dupB].Perm [dupB, dupA] ∧
    ldmAddAll [] [dupA, dupB] ≠ ldmAddAll [] [dupB, dupA] :=
  ⟨rfl, rfl, rfl, rfl, List.Perm.swap dupB dupA [], by decide⟩

/-- Witness for C6: the two S3 disks (distinct GUIDs `GA`, `GB`) can be
ingested in either order with the same resulting registry. -/
theorem C6_witness :
    ldmAddAll [] [dIn1, dIn2] = ldmAddAll [] [dIn2, dIn1] :=
  C6_add_order_independent [dIn1, dIn2] [dIn2, dIn1]
    (List.Perm.swap dIn2 dIn1 []) draftS3 "GG" 4 (by decide) (by decide)

/-! ## Claim C7 -/

theorem nondecreasingBy_insert (key : α → Nat) (x : α) (l : List α)
    (h : nondecreasingBy key l = true) :
    nondecreasingBy key (insertByKey key x l) = true := by
  induction l with
  | nil => rfl
  | cons y ys ih =>
    unfold insertByKey
    by_cases hxy : key x ≤ key y
    · simp only [if_pos hxy]
      simp [nondecreasingBy, hxy, h]
    · simp only [if_neg hxy]
      have hyx : key y ≤ key x := Nat.le_of_not_le hxy
      cases ys with
      | nil => simp [insertByKey, nondecreasingBy, hyx]
      | cons z zs =>
        simp only [nondecreasingBy, Bool.and_eq_true, decide_eq_true_eq] at h
        have ih' := ih h.2
        unfold insertByKey
        by_cases hxz : key x ≤ key z
        · simp only [if_pos hxz]
          simp [nondecreasingBy, hyx, hxz, h.2]
        · simp only [if_neg hxz]
          have heq : insertByKey key x (z :: zs) = z :: insertByKey key x zs := by
            simp [insertByKey, hxz]
          rw [heq] at ih'
          simp [nondecreasingBy, h.1, ih']

theorem nondecreasingBy_sortByKey (key : α → Nat) (l : List α) :
    nondecreasingBy key (sortByKey key l) = true := by
  induction l with
  | nil => rfl
  | cons x xs ih => exact nondecreasingBy_insert key x _ ih

theorem linkCompsAux_sorted (parts : List PartR) (cs : List CompR) :
    ∀ (k : Nat) (vols : List VolR) (acc : List CompR)
      (comps' : List CompR) (vols' : List VolR),
      (∀ c ∈ acc, nondecreasingBy (partIndexKey parts) c.parts = true) →
      linkCompsAux parts cs k vols acc = .ok (comps', vols') →
      ∀ c ∈ comps', nondecreasingBy (partIndexKey parts) c.parts = true := by
  induction cs with
  | nil =>
    intro k vols acc comps' vols' hacc h c hc
    simp only [linkCompsAux, Except.ok.injEq, Prod.mk.injEq] at h
    rw [← h.1] at hc
    exact hacc c (by simpa using hc)
  | cons c0 rest ih =>
    intro k vols acc comps' vols' hacc h c hc
    unfold linkCompsAux at h
    by_cases hlen : c0.parts.length ≠ c0.n_parts
    · simp [hlen] at h
    · rw [if_neg hlen] at h
      cases hfi : firstIdx? (fun v => v.id == c0.parent_id) vols with
      | none => rw [hfi] at h; cases h
      | some j =>
        rw [hfi] at h
        refine ih _ _ _ _ _ (fun c' hc' => ?_) h c hc
        rcases List.mem_cons.mp hc' with h' | h'
        · rw [h']
          exact nondecreasingBy_sortByKey _ _
        · exact hacc c' h'

/-- C7 (amended): in every resolved disk group, every component's child list
is sorted by the partitions' `index` fields in non-decreasing (not
necessarily strictly increasing) order. -/
theorem C7_component_parts_sorted (dg g : DiskGroup) (h : resolve dg = .ok g) :
    g.comps.all (fun c => nondecreasingBy (partIndexKey g.parts) c.parts) = true := by
  unfold resolve at h
  split at h
  · cases h
  split at h
  · cases h
  split at h
  · cases h
  split at h
  · cases h
  split at h
  · cases h
  next parts' comps₀ hlp =>
  split at h
  · cases h
  next comps' vols₀ hlc =>
  split at h
  · cases h
  next vols' hcv =>
  cases h
  rw [List.all_eq_true]
  intro c hc
  exact linkCompsAux_sorted parts' comps₀ 0 _ [] comps' vols₀ (by simp) hlc c hc

/-- Counterexample to C7: a resolvable group whose component has two children
with the same `index` (both partition VBLKs carry the default index 0); its
child list is not strictly ascending. -/
theorem C7_counterexample :
    resolve { draftIdx with guid := "GI-G" } = .ok gIdx ∧
    gIdx.comps.all
      (fun c => strictAscendingBy (partIndexKey gIdx.parts) c.parts) = false :=
  ⟨rfl, rfl⟩

/-- Witness for C7: the non-decreasing ordering holds for the resolved
duplicate-index group. -/
theorem C7_witness :
    gIdx.comps.all (fun c => nondecreasingBy (partIndexKey gIdx.parts) c.parts) = true :=
  C7_component_parts_sorted { draftIdx with guid := "GI-G" } gIdx rfl

/-! ## Claim C1 -/

theorem mirroredLoop_leafs (g : DiskGroup) (cs : List Nat) :
    ∀ (leafs : List DMTable) (tbl : String) (found : Nat)
      (leafs' : List DMTable) (tbl' : String) (found' : Nat),
      mirroredLoop g cs leafs tbl found = .ok (leafs', tbl', found') →
      leafs' = (cs.filterMap (mirrorLegEntry g)).reverse ++ leafs := by
  induction cs with
  | nil =>
    intro leafs tbl found leafs' tbl' found' h
    simp only [mirroredLoop, Except.ok.injEq, Prod.mk.injEq] at h
    simp [← h.1]
  | cons ci rest ih =>
    intro leafs tbl found leafs' tbl' found' h
    unfold mirroredLoop at h
    split at h
    · cases h
    next comp hgc =>
    split at h
    · cases h
    next hshape =>
    split at h
    · cases h
    next pi hp0 =>
    split at h
    · cases h
    next part hpp =>
    split at h
    next hgen =>
      have h1 : g.comps[ci]? = some comp := by simpa using hgc
      have h2 : comp.parts[0]? = some pi := by simpa using hp0
      have h3 : g.parts[pi]? = some part := by simpa using hpp
      have hleg : mirrorLegEntry g ci = none := by
        simp [mirrorLegEntry, h1, h2, h3, hgen, Except.toOption]
      have := ih _ _ _ _ _ _ h
      simpa [List.filterMap_cons, hleg] using this
    next e hne hgen => cases h
    next t hgen =>
      have h1 : g.comps[ci]? = some comp := by simpa using hgc
      have h2 : comp.parts[0]? = some pi := by simpa using hp0
      have h3 : g.parts[pi]? = some part := by simpa using hpp
      have hleg : mirrorLegEntry g ci = some t := by
        simp [mirrorLegEntry, h1, h2, h3, hgen, Except.toOption]
      have := ih _ _ _ _ _ _ h
      rw [this, List.filterMap_cons, hleg]
      simp

/-- C1 (amended): for a GEN volume with more than one component (mirror), a
successful `ldm_volume_generate_dm_tables` emits the leaf tables of the
present legs in *reverse* component order (they are prepended one by one),
all before the top-level raid1 table, which comes last. -/
theorem C1_mirror_table_order (g : DiskGroup) (vol : VolR) (ts : List DMTable)
    (hT : vol.type = VolType.gen) (hN : 1 < vol.comps.length)
    (h : ldm_volume_generate_dm_tables g vol = .ok ts) :
    ts.dropLast = (vol.comps.filterMap (mirrorLegEntry g)).reverse ∧
    ts.getLast?.map (fun t => t.name) =
      some ("ldm_" ++ vol.dgname ++ "_" ++ vol.name) := by
  have h' : generate_dm_tables_mirrored g vol = .ok ts := by
    unfold ldm_volume_generate_dm_tables at h
    simp only [hT] at h
    rwa [if_pos hN] at h
  unfold generate_dm_tables_mirrored at h'
  split at h'
  · cases h'
  next leafs tbl found hloop =>
  split at h'
  · cases h'
  next hf =>
  cases h'
  have hl := mirroredLoop_leafs g vol.comps _ _ _ _ _ _ hloop
  refine ⟨?_, ?_⟩
  · rw [List.dropLast_concat]
    simpa using hl
  · rw [List.getLast?_concat]
    rfl

/-- Counterexample to C1: for scenario S3 the emitted order is leg `pb`, leg
`pa`, top table — not `pa`, `pb`, top as claimed: the leaf tables appear in
reverse component order. -/
theorem C1_counterexample :
    regS3 = [gS3] ∧ gS3.vols = [vS3] ∧
    ldm_volume_generate_dm_tables gS3 vS3 = .ok tsS3 ∧
    tsS3.map (fun t => t.name) = ["ldm_dg1_pb", "ldm_dg1_pa", "ldm_dg1_v1"] ∧
    tsS3.map (fun t => t.name) ≠ ["ldm_dg1_pa", "ldm_dg1_pb", "ldm_dg1_v1"] :=
  ⟨rfl, rfl, rfl, rfl, by decide⟩

/-- Witness for C1: the amended ordering statement instantiated on S3. -/
theorem C1_witness :
    tsS3.dropLast = (vS3.comps.filterMap (mirrorLegEntry gS3)).reverse ∧
    tsS3.getLast?.map (fun t => t.name) =
      some ("ldm_" ++ vS3.dgname ++ "_" ++ vS3.name) :=
  C1_mirror_table_order gS3 vS3 tsS3 rfl (by decide) rfl

/-! ## Claim C2 -/

theorem generate_dm_table_part_name (g : DiskGroup) (part : PartR) (t : DMTable)
    (hmem : part ∈ g.parts) (h : generate_dm_table_part g part = .ok t) :
    escapedLeafName g t = true := by
  unfold generate_dm_table_part at h
  split at h
  · cases h
  next dsk hdsk =>
  split at h
  · cases h
  next dev hdev =>
  cases h
  unfold escapedLeafName
  rw [List.any_eq_true]
  have hdsk' : (part.disk.bind fun a => g.disks[a]?) = some dsk := by
    simpa using hdsk
  exact ⟨part, hmem, by simp [hdsk']⟩

theorem mirroredLoop_names (g : DiskGroup) (cs : List Nat) :
    ∀ (leafs : List DMTable) (tbl : String) (found : Nat)
      (leafs' : List DMTable) (tbl' : String) (found' : Nat),
      (∀ t ∈ leafs, escapedLeafName g t = true) →
      mirroredLoop g cs leafs tbl found = .ok (leafs', tbl', found') →
      ∀ t ∈ leafs', escapedLeafName g t = true := by
  induction cs with
  | nil =>
    intro leafs tbl found leafs' tbl' found' hacc h
    simp only [mirroredLoop, Except.ok.injEq, Prod.mk.injEq] at h
    rw [← h.1]
    exact hacc
  | cons ci rest ih =>
    intro leafs tbl found leafs' tbl' found' hacc h
    unfold mirroredLoop at h
    split at h
    · cases h
    next comp hgc =>
    split at h
    · cases h
    next hshape =>
    split at h
    · cases h
    next pi hp0 =>
    split at h
    · cases h
    next part hpp =>
    split at h
    next hgen => exact ih _ _ _ _ _ _ hacc h
    next e hne hgen => cases h
    next t hgen =>
      refine ih _ _ _ _ _ _ (fun t' ht' => ?_) h
      rcases List.mem_cons.mp ht' with h' | h'
      · rw [h']
        exact generate_dm_table_part_name g part t
          (List.get?_mem (by simpa using hpp)) hgen
      · exact hacc t' h'

theorem raid5Loop_names (g : DiskGroup) (ps : List Nat) :
    ∀ (leafs : List DMTable) (tbl : String) (found : Nat)
      (leafs' : List DMTable) (tbl' : String) (found' : Nat),
      (∀ t ∈ leafs, escapedLeafName g t = true) →
      raid5Loop g ps leafs tbl found = .ok (leafs', tbl', found') →
      ∀ t ∈ leafs', escapedLeafName g t = true := by
  induction ps with
  | nil =>
    intro leafs tbl found leafs' tbl' found' hacc h
    simp only [raid5Loop, Except.ok.injEq, Prod.mk.injEq] at h
    rw [← h.1]
    exact hacc
  | cons pi rest ih =>
    intro leafs tbl found leafs' tbl' found' hacc h
    unfold raid5Loop at h
    split at h
    · cases h
    next part hpp =>
    split at h
    next hgen => exact ih _ _ _ _ _ _ hacc h
    next e hne hgen => cases h
    next t hgen =>
      refine ih _ _ _ _ _ _ (fun t' ht' => ?_) h
      rcases List.mem_cons.mp ht' with h' | h'
      · rw [h']
        exact generate_dm_table_part_name g part t
          (List.get?_mem (by simpa using hpp)) hgen
      · exact hacc t' h'

/-- C2 (amended): every table emitted by `ldm_volume_generate_dm_tables`
either is a leaf partition table, whose name is
`ldm_<escaped dgname>_<escaped partition name>`, or is the top-level volume
table, whose name `ldm_<dgname>_<volume name>` is built from the *raw*
(unescaped) disk-group and volume names. -/
theorem C2_table_name_shapes (g : DiskGroup) (vol : VolR) (ts : List DMTable)
    (h : ldm_volume_generate_dm_tables g vol = .ok ts) :
    ts.all
      (fun t => escapedLeafName g t ||
        (t.name == "ldm_" ++ vol.dgname ++ "_" ++ vol.name)) = true := by
  rw [List.all_eq_true]
  intro t ht
  unfold ldm_volume_generate_dm_tables at h
  split at h
  · -- GEN volume
    split at h
    · -- mirror branch
      unfold generate_dm_tables_mirrored at h
      split at h
      · cases h
      next leafs tbl found hloop =>
      split at h
      · cases h
      next hf =>
      cases h
      rcases List.mem_append.mp ht with h' | h'
      · have := mirroredLoop_names g vol.comps _ _ _ _ _ _ (by simp) hloop t h'
        simp [this]
      · have : t = { name := "ldm_" ++ vol.dgname ++ "_" ++ vol.name, table := tbl ++ "\n" } := by
          simpa using h'
        simp [this]
    · -- single component
      split at h
      · cases h
      next ci hci =>
      split at h
      · cases h
      next comp hcomp =>
      split at h
      · -- spanned
        next hct =>
        unfold generate_dm_tables_spanned at h
        split at h
        · cases h
        next tbl hsl =>
        cases h
        have : t = { name := "ldm_" ++ vol.dgname ++ "_" ++ vol.name, table := tbl } := by
          simpa using ht
        simp [this]
      · -- striped
        next hct =>
        unfold generate_dm_tables_striped at h
        split at h
        · cases h
        next tbl hsl =>
        cases h
        have : t = { name := "ldm_" ++ vol.dgname ++ "_" ++ vol.name, table := tbl } := by
          simpa using ht
        simp [this]
      · -- raid component under GEN
        cases h
  · -- RAID5 volume
    unfold generate_dm_tables_raid5 at h
    split at h
    · cases h
    split at h
    · cases h
    next ci hci =>
    split at h
    · cases h
    next comp hcomp =>
    split at h
    · cases h
    next hct =>
    split at h
    · cases h
    next leafs tbl found hloop =>
    split at h
    · cases h
    next hf =>
    cases h
    rcases List.mem_append.mp ht with h' | h'
    · have := raid5Loop_names g comp.parts _ _ _ _ _ _ (by simp) hloop t h'
      simp [this]
    · have : t = { name := "ldm_" ++ vol.dgname ++ "_" ++ vol.name, table := tbl ++ "\n" } := by
        simpa using h'
      simp [this]

/-- Counterexample to C2: the top-level table of the spanned volume in the
disk group named `d g` keeps the raw space in its name, so its name is not
the percent-escaped `ldm_d%20g_ve` that the claim requires for every table. -/
theorem C2_counterexample :
    ldmAddAll [] [dInEsc] = [gEsc] ∧ gEsc.vols = [vEsc] ∧
    ldm_volume_generate_dm_tables gEsc vEsc =
      .ok [{ name := "ldm_d g_ve", table := "0 2048 linear /dev/sdb 384\n" }] ∧
    "ldm_d g_ve" ≠
      "ldm_" ++ g_uri_escape_string gEsc.name ++ "_" ++ g_uri_escape_string vEsc.name :=
  ⟨rfl, rfl, rfl, by decide⟩

/-- Witness for C2: the amended name-shape statement instantiated on the
`d g` spanned volume. -/
theorem C2_witness :
    ([{ name := "ldm_d g_ve", table := "0 2048 linear /dev/sdb 384\n" }] : List DMTable).all
      (fun t => escapedLeafName gEsc t ||
        (t.name == "ldm_" ++ vEsc.dgname ++ "_" ++ vEsc.name)) = true :=
  C2_table_name_shapes gEsc vEsc _ rfl

/-! ## Claim C3 -/

theorem spannedLoop_ok (g : DiskGroup) (l : List Nat) :
    ∀ (tbl : String) (pos : Nat) (tbl' : String),
      spannedLoop g l tbl pos = .ok tbl' →
      (derefParts g l).map (fun p => p.vol_offset) =
          runningOffsets pos ((derefParts g l).map fun p => p.size) ∧
        tbl' = tbl ++ renderSegments g pos (derefParts g l) := by
  induction l with
  | nil =>
    intro tbl pos tbl' h
    simp only [spannedLoop, Except.ok.injEq] at h
    simp [derefParts, runningOffsets, renderSegments, ← h]
  | cons pi rest ih =>
    intro tbl pos tbl' h
    unfold spannedLoop at h
    split at h
    · cases h
    next part hpp =>
    split at h
    · cases h
    next dsk hdsk =>
    split at h
    · cases h
    next dev hdev =>
    split at h
    · cases h
    next hpos =>
    have hpos' : pos = part.vol_offset := not_ne_iff.mp hpos
    have hih := ih _ _ _ h
    have hpp' : g.parts[pi]? = some part := by simpa using hpp
    have hder : derefParts g (pi :: rest) = part :: derefParts g rest := by
      simp [derefParts, List.filterMap_cons, hpp']
    constructor
    · rw [hder]
      simp only [List.map_cons, runningOffsets]
      rw [← hpos', hih.1]
    · rw [hder]
      simp only [renderSegments, hdsk, hdev]
      rw [hih.2]
      simp [String.append_assoc]

theorem spannedLoop_mismatch (g : DiskGroup) (l : List Nat) :
    ∀ (tbl : String) (pos : Nat),
      spannedDisksPresent g l = true →
      (derefParts g l).map (fun p => p.vol_offset) ≠
        runningOffsets pos ((derefParts g l).map fun p => p.size) →
      spannedLoop g l tbl pos = .error .invalid := by
  induction l with
  | nil =>
    intro tbl pos _ hne
    exact absurd (by simp [derefParts, runningOffsets]) hne
  | cons pi rest ih =>
    intro tbl pos hdp hne
    unfold spannedDisksPresent at hdp
    rw [List.all_cons, Bool.and_eq_true] at hdp
    obtain ⟨hd1, hdrest⟩ := hdp
    cases hpp : g.parts.get? pi with
    | none => rw [show g.parts.get? pi = g.parts[pi]? from by simp] at hpp; simp [hpp] at hd1
    | some part =>
      have hpp' : g.parts[pi]? = some part := by simpa using hpp
      cases hdsk : part.disk.bind g.disks.get? with
      | none =>
        have : (part.disk.bind fun a => g.disks[a]?) = none := by simpa using hdsk
        simp [hpp', this] at hd1
      | some dsk =>
        have hdsk' : (part.disk.bind fun a => g.disks[a]?) = some dsk := by simpa using hdsk
        cases hdev : dsk.device with
        | none => simp [hpp', hdsk', hdev] at hd1
        | some dev =>
          by_cases heq : pos = part.vol_offset
          · have hne' :
                (derefParts g rest).map (fun p => p.vol_offset) ≠
                  runningOffsets (u64add pos part.size)
                    ((derefParts g rest).map fun p => p.size) := by
              intro hEq
              apply hne
              have hder : derefParts g (pi :: rest) = part :: derefParts g rest := by
                simp [derefParts, List.filterMap_cons, hpp']
              rw [hder]
              simp only [List.map_cons, runningOffsets]
              rw [← heq, hEq]
            have := ih (tbl ++ toString pos ++ " " ++ toString (u64add pos part.size) ++
              " linear " ++ dev ++ " " ++ toString (u64add dsk.data_start part.start) ++
              "\n") (u64add pos part.size) (by simpa [spannedDisksPresent] using hdrest) hne'
            simp only [spannedLoop, List.get?_eq_getElem?, hpp', hdsk', hdev]
            rw [if_neg (not_ne_iff.mpr heq)]
            exact this
          · simp only [spannedLoop, List.get?_eq_getElem?, hpp', hdsk', hdev]
            rw [if_pos heq]

/-- C3 (amended): for a GEN volume with a single SPANNED component, a
successful generation emits exactly one table whose segment lines are the
contiguous sequence rendered by `renderSegments` from position 0, so each
partition's `vol_offset` equals the `uint64_t` running sum of the preceding
partitions' sizes and the total emitted length is the running sum of all
sizes — which the generator never compares with `volume.size`.  When every
partition's disk is present and the offsets are not contiguous, the
generator fails with `Invalid`; a missing disk is reported as `MissingDisk`
before the offset check. -/
theorem C3_spanned_offsets (g : DiskGroup) (vol : VolR) (ci : Nat) (comp : CompR)
    (hT : vol.type = VolType.gen) (hc : vol.comps = [ci])
    (hcomp : g.comps[ci]? = some comp) (hst : comp.type = CompType.spanned) :
    (∀ ts, ldm_volume_generate_dm_tables g vol = .ok ts →
       ((derefParts g comp.parts).map (fun p => p.vol_offset) =
           runningOffsets 0 ((derefParts g comp.parts).map fun p => p.size) ∧
         ts = [{ name := "ldm_" ++ vol.dgname ++ "_" ++ vol.name
                 table := renderSegments g 0 (derefParts g comp.parts) }])) ∧
    (spannedDisksPresent g comp.parts = true →
     (derefParts g comp.parts).map (fun p => p.vol_offset) ≠
       runningOffsets 0 ((derefParts g comp.parts).map fun p => p.size) →
     ldm_volume_generate_dm_tables g vol = .error .invalid) := by
  have hdisp :
      ldm_volume_generate_dm_tables g vol = generate_dm_tables_spanned g vol comp := by
    unfold ldm_volume_generate_dm_tables
    simp [hT, hc, hcomp, hst]
  constructor
  · intro ts h
    rw [hdisp] at h
    unfold generate_dm_tables_spanned at h
    split at h
    · cases h
    next tbl hsl =>
    cases h
    have := spannedLoop_ok g comp.parts _ _ _ hsl
    exact ⟨this.1, by rw [this.2]; simp⟩
  · intro hdp hne
    rw [hdisp]
    unfold generate_dm_tables_spanned
    rw [spannedLoop_mismatch g comp.parts "" 0 hdp hne]

/-- Counterexample to C3: generation succeeds on a spanned volume whose
declared size (9999) differs from the emitted total (2048) — the total is
never compared with `volume.size` — and a volume whose partition has
`vol_offset = 5 ≠ 0` but a missing disk fails with `MissingDisk`, not
`Invalid`. -/
theorem C3_counterexample :
    ldm_volume_generate_dm_tables gEsc vEsc =
      .ok [{ name := "ldm_d g_ve", table := "0 2048 linear /dev/sdb 384\n" }] ∧
    u64sum ((derefParts gEsc compEscR.parts).map fun p => p.size) = 2048 ∧
    vEsc.size = 9999 ∧
    partMiss.vol_offset ≠ 0 ∧
    ldm_volume_generate_dm_tables gMiss vMiss = .error LdmError.missingDisk ∧
    LdmError.missingDisk ≠ LdmError.invalid :=
  ⟨rfl, rfl, rfl, by decide, rfl, by decide⟩

/-- Witness for C3: the amended statement instantiated on the `d g` spanned
volume. -/
theorem C3_witness :
    (derefParts gEsc compEscR.parts).map (fun p => p.vol_offset) =
        runningOffsets 0 ((derefParts gEsc compEscR.parts).map fun p => p.size) ∧
      ([{ name := "ldm_d g_ve", table := "0 2048 linear /dev/sdb 384\n" }] : List DMTable) =
        ([{ name := "ldm_" ++ vEsc.dgname ++ "_" ++ vEsc.name
            table := renderSegments gEsc 0 (derefParts gEsc compEscR.parts) }] : List DMTable) :=
  (C3_spanned_offsets gEsc vEsc 0 compEscR rfl rfl rfl rfl).1 _ rfl

/-! ## Claim C9 -/

/-- C9: a GEN volume with a declared and observed component count of zero is
accepted by the resolver, and on such a volume the GEN branch of
`ldm_volume_generate_dm_tables` reads element 0 of the empty component list
(the model's `oob` outcome) instead of returning an ordinary error. -/
theorem C9_empty_gen_volume_oob :
    resolve { draftEmpty with guid := "G9-G" } = .ok gEmpty ∧
    gEmpty.vols = [vEmpty] ∧
    vEmpty.type = VolType.gen ∧
    vEmpty.comps = [] ∧
    ldm_volume_generate_dm_tables gEmpty vEmpty = .error LdmError.oob :=
  ⟨rfl, rfl, rfl, rfl, rfl⟩

end Libldm
